import Mathlib

/-!
Verification of the VideoMuse execution engine against its specification.

Shallow embedding of the relevant parts of the backend:
  app/llm/provider.py       (retryable chat client, JSON mode)
  app/platforms/bilibili.py (wbi mixin-key cache, subtitle verification retry)
  app/pipeline/orchestrator.py, steps/extract.py (stage pipeline, extract early-stop)
  app/agent/loop.py, agent/tools.py (autonomous loop backfill and force-report)

External effects (HTTP calls, the LLM completion endpoint, subtitle
extraction, wall-clock time) are modelled as oracle functions supplied as
parameters; everything else is translated directly from the Python source.
-/

namespace VideoMuse

/-- Decidable equality for Except, needed to compute with modelled
exception-or-value results in witnesses. -/
instance {ε α : Type _} [DecidableEq ε] [DecidableEq α] : DecidableEq (Except ε α) :=
  fun a b =>
  match a, b with
  | .ok x, .ok y =>
    if h : x = y then .isTrue (congrArg Except.ok h)
    else .isFalse (fun hh => h (Except.ok.inj hh))
  | .error x, .error y =>
    if h : x = y then .isTrue (congrArg Except.error h)
    else .isFalse (fun hh => h (Except.error.inj hh))
  | .ok _, .error _ => .isFalse Except.noConfusion
  | .error _, .ok _ => .isFalse Except.noConfusion

/-- Occurrence of a needle as a contiguous block of a haystack, scanned
position by position over character lists. -/
def listHasInfix (needle : List Char) : List Char → Bool
  | [] => needle.isEmpty
  | c :: rest => needle.isPrefixOf (c :: rest) || listHasInfix needle rest

/-- Substring test mirroring the Python expression needle in hay, computed
on the underlying character lists so that proofs can evaluate it. -/
def strContains (hay needle : String) : Bool :=
  listHasInfix needle.data hay.data

/-- Whitespace strip from both ends, mirroring the Python str.strip method. -/
def strTrim (s : String) : String :=
  ⟨((s.data.dropWhile Char.isWhitespace).reverse.dropWhile Char.isWhitespace).reverse⟩

/-- Test mirroring the Python str.startswith method. -/
def strStartsWith (s p : String) : Bool :=
  p.data.isPrefixOf s.data

/-- Split on newline characters, mirroring the Python expression
text.split applied to a newline. -/
def splitOnNewline (s : String) : List String :=
  (s.data.splitOn '\n').map fun cs => ⟨cs⟩

/-- Join with newline separators, mirroring the Python newline join. -/
def joinNewline (ls : List String) : String :=
  ⟨List.intercalate ['\n'] (ls.map String.data)⟩

/-! ## Text-Generation Client (app/llm/provider.py) -/

/-- Constant MAX_RETRIES from provider.py line 13. -/
def MAX_RETRIES : Nat := 3

/-- Constant RETRY_BASE_DELAY (seconds) from provider.py line 14. -/
def RETRY_BASE_DELAY : Nat := 2

/-- Result of OpenAICompatibleProvider.chat: the returned text or the
re-raised last exception, together with the number of underlying completion
calls that were issued and the list of backoff sleeps (in seconds) performed
between attempts. -/
structure ChatOutcome where
  result : Except String String
  calls : Nat
  delays : List Nat
deriving DecidableEq, Repr

/-- Retry loop of OpenAICompatibleProvider.chat (provider.py lines 36-61).
The Python loop for attempt in range(1, MAX_RETRIES + 1) is modelled by
iterating over the list of attempt numbers; oracle gives, per attempt, either
the content returned by chat.completions.create or the exception it raised.
On failure the last exception is recorded; a backoff sleep of
RETRY_BASE_DELAY * 2 ^ (attempt - 1) happens only when attempt < MAX_RETRIES;
after the last attempt the recorded exception is raised. -/
def chatGo (oracle : Nat → Except String String) :
    String → List Nat → Nat → List Nat → ChatOutcome
  | lastExc, [], calls, delays => ⟨.error lastExc, calls, delays⟩
  | _lastExc, attempt :: rest, calls, delays =>
    match oracle attempt with
    | .ok content => ⟨.ok content, calls + 1, delays⟩
    | .error e =>
      chatGo oracle e rest (calls + 1)
        (if attempt < MAX_RETRIES then
          delays ++ [RETRY_BASE_DELAY * 2 ^ (attempt - 1)]
        else delays)

/-- OpenAICompatibleProvider.chat (provider.py lines 32-61). -/
def chat (oracle : Nat → Except String String) : ChatOutcome :=
  chatGo oracle "" (List.range' 1 MAX_RETRIES) 0 []

/-- Message with a role and content, mirroring the Python message dicts. -/
structure Message where
  role : String
  content : String
deriving DecidableEq, Repr

/-- Instruction text injected by chat_json (provider.py lines 67 and 71). -/
def JSON_ONLY_INSTRUCTION : String := "You must respond with valid JSON only."

/-- Message-list preparation of chat_json (provider.py lines 65-72): if the
first message is a system message that does not contain the substring JSON,
the instruction is appended to it; if the first message is not a system
message (or the list is empty), a new system message carrying the
instruction is inserted at position 0. -/
def injectJsonInstruction (messages : List Message) : List Message :=
  match messages with
  | m :: rest =>
    if m.role = "system" then
      if strContains m.content "JSON" then m :: rest
      else { m with content := m.content ++ "\n\n" ++ JSON_ONLY_INSTRUCTION } :: rest
    else { role := "system", content := JSON_ONLY_INSTRUCTION } :: m :: rest
  | [] => [{ role := "system", content := JSON_ONLY_INSTRUCTION }]

/-- Code-fence stripping of chat_json (provider.py lines 76-79): strip
whitespace; if the text starts with a backtick fence, split into lines and
drop the first and last line provided more than two lines exist. -/
def stripCodeFence (raw : String) : String :=
  let text := strTrim raw
  if strStartsWith text "```" then
    let lines := splitOnNewline text
    if lines.length > 2 then joinNewline ((lines.drop 1).dropLast)
    else text
  else text

/-! ## Request signing: wbi mixin-key cache (app/platforms/bilibili.py) -/

/-- Module-level wbi cache state (bilibili.py lines 45-47): the cached mixin
key, with the empty string standing for the Python None or empty value (both
falsy), and its expiry time in seconds. -/
structure WbiCache where
  key : String
  expires : Nat
deriving DecidableEq, Repr

/-- The 30-minute time-to-live used when caching the mixin key
(bilibili.py line 112). -/
def WBI_TTL : Nat := 1800

/-- Result of one mixin-key request: the key served, the cache state
afterwards, and whether a network fetch of the nav API was issued. -/
structure WbiFetchResult where
  key : String
  cache : WbiCache
  networkCall : Bool
deriving DecidableEq, Repr

/-- The function get_wbi_mixin_key (bilibili.py lines 90-115): if a truthy
key is cached and the current time is before its expiry, return it with no
network I/O; otherwise fetch the nav API and derive the mixin key (both
modelled together by the fetch oracle) and cache the result for WBI_TTL
seconds. -/
def get_wbi_mixin_key (fetch : Nat → String) (now : Nat) (st : WbiCache) :
    WbiFetchResult :=
  if st.key ≠ "" ∧ now < st.expires then ⟨st.key, st, false⟩
  else
    let k := fetch now
    ⟨k, ⟨k, now + WBI_TTL⟩, true⟩

/-- Serving a sequence of signing-key requests at the given times through the
shared cache, counting the total number of network fetches issued. -/
def processWbiRequests (fetch : Nat → String) : List Nat → WbiCache → WbiCache × Nat
  | [], st => (st, 0)
  | t :: ts, st =>
    let r := get_wbi_mixin_key fetch t st
    let rest := processWbiRequests fetch ts r.cache
    (rest.1, (if r.networkCall then 1 else 0) + rest.2)

/-- Result of chat_json: the messages actually sent to the model, the parse
result (or the propagated generation error), and the number of underlying
completion calls issued. -/
structure ChatJsonOutcome (α : Type) where
  sent : List Message
  result : Except String α
  calls : Nat

/-- OpenAICompatibleProvider.chat_json (provider.py lines 63-81). The
json.loads call is modelled by the parse parameter; a parse failure is
raised to the caller directly, with no further generation calls. -/
def chat_json {α : Type} (parse : String → Except String α)
    (oracle : Nat → Except String String) (messages : List Message) :
    ChatJsonOutcome α :=
  let sent := injectJsonInstruction messages
  let out := chat oracle
  { sent := sent
    result :=
      match out.result with
      | .error e => .error e
      | .ok text => parse (stripCodeFence text)
    calls := out.calls }

/-! ## Subtitle-track fetch with verification retry (bilibili.py) -/

/-- One subtitle track as returned by the player v2 API: a language code and
a subtitle URL. -/
structure SubTrack where
  lan : String
  subtitle_url : String
deriving DecidableEq, Repr

/-- One player v2 API attempt, as observed by the retry loop: a raised
exception, a payload with a non-zero error code, or a payload carrying a
subtitle-track list. -/
inductive PlayerResponse where
  | exn (msg : String)
  | apiError (code : Int) (msg : String)
  | tracks (subs : List SubTrack)
deriving DecidableEq, Repr

/-- Constant MAX_SUBTITLE_RETRIES from bilibili.py line 352. -/
def MAX_SUBTITLE_RETRIES : Nat := 8

/-- Constant RETRY_DELAY from bilibili.py line 353, in milliseconds
(the source value is 1.2 seconds). -/
def RETRY_DELAY_MS : Nat := 1200

/-- Verification filter of bilibili.py lines 396-411: a track is dropped when
its URL is empty, or when its URL is an AI-subtitle URL (contains the
/ai_subtitle/ marker) that does not embed the expected aid string; every
other track is kept. -/
def verifyTracks (aidStr : String) (subs : List SubTrack) : List SubTrack :=
  subs.filter fun sub =>
    !(sub.subtitle_url == "") &&
      (!(strContains sub.subtitle_url "/ai_subtitle/") || strContains sub.subtitle_url aidStr)

/-- Result of the player v2 retry loop: the track list returned, the number
of the attempt on which the loop returned, and the inter-attempt sleeps
performed (milliseconds). -/
structure SubtitleFetchOutcome where
  tracks : List SubTrack
  attemptsMade : Nat
  delays : List Nat
deriving DecidableEq, Repr

/-- Retry loop of BilibiliAdapter._get_subtitle_list_from_player
(bilibili.py lines 355-455), iterating over the list of attempt numbers.
Exceptions, non-zero API codes, empty track lists and (when an aid is known)
track lists in which no track survives verification all retry after a
RETRY_DELAY sleep while attempts remain, and produce the empty list once the
last attempt is spent; a non-empty verified list returns immediately. -/
def get_subtitle_list_go (resp : Nat → PlayerResponse) (aid : Option String) :
    List Nat → List Nat → SubtitleFetchOutcome
  | [], delays => ⟨[], MAX_SUBTITLE_RETRIES, delays⟩
  | attempt :: rest, delays =>
    match resp attempt with
    | .exn _ =>
      if rest.isEmpty then ⟨[], attempt, delays⟩
      else get_subtitle_list_go resp aid rest (delays ++ [RETRY_DELAY_MS])
    | .apiError _ _ =>
      if rest.isEmpty then ⟨[], attempt, delays⟩
      else get_subtitle_list_go resp aid rest (delays ++ [RETRY_DELAY_MS])
    | .tracks subs =>
      if subs.isEmpty then
        if rest.isEmpty then ⟨[], attempt, delays⟩
        else get_subtitle_list_go resp aid rest (delays ++ [RETRY_DELAY_MS])
      else
        match aid with
        | some aidStr =>
          let verified := verifyTracks aidStr subs
          if verified.isEmpty then
            if rest.isEmpty then ⟨[], attempt, delays⟩
            else get_subtitle_list_go resp aid rest (delays ++ [RETRY_DELAY_MS])
          else ⟨verified, attempt, delays⟩
        | none => ⟨subs, attempt, delays⟩

/-- BilibiliAdapter._get_subtitle_list_from_player (bilibili.py 342-455). -/
def get_subtitle_list_from_player (resp : Nat → PlayerResponse) (aid : Option String) :
    SubtitleFetchOutcome :=
  get_subtitle_list_go resp aid (List.range' 1 MAX_SUBTITLE_RETRIES) []

/-- Classification of one attempt as leading to a retry when the aid is
known: an exception, a non-zero code, zero tracks, or no track surviving
verification. -/
def attemptRetriable (aidStr : String) : PlayerResponse → Bool
  | .exn _ => true
  | .apiError _ _ => true
  | .tracks subs => subs.isEmpty || (verifyTracks aidStr subs).isEmpty

/-- Step 2 to step 3 of BilibiliAdapter.get_subtitles (bilibili.py lines
300-313): when the player v2 loop produced no tracks, the result is the
Whisper fallback; otherwise the chosen track content is fetched. -/
def subtitle_stage_result (playerTracks : List SubTrack) (whisper : Option String)
    (fetchContent : List SubTrack → Option String) : Option String :=
  if playerTracks.isEmpty then whisper else fetchContent playerTracks

/-! ## Extract stage (app/pipeline/steps/extract.py, app/pipeline/context.py) -/

/-- Platform-agnostic video metadata (app/platforms/base.py VideoInfo). -/
structure VideoInfo where
  video_id : String
  title : String
  author : String
  url : String
  duration : Nat := 0
  cover_url : String := ""
  platform : String := ""
deriving DecidableEq, Repr

/-- Extracted content and summary for one video
(app/pipeline/context.py VideoResult). The empty string models the Python
falsy defaults. -/
structure VideoResult where
  info : VideoInfo
  transcript : String := ""
  summary : String := ""
  extraction_method : String := ""
deriving DecidableEq, Repr

/-- One get_subtitles call as seen by the extract loop: either a returned
text (the empty string standing for both None and an empty result, which
Python treats identically as falsy) or a raised exception. -/
inductive ExtractOutcome where
  | ok (text : String)
  | exn (msg : String)
deriving DecidableEq, Repr

/-- Shared pipeline state (app/pipeline/context.py PipelineContext),
restricted to the fields the extract stage reads and writes. -/
structure PipelineContext where
  query : String
  platform : String := "bilibili"
  max_videos : Nat := 10
  videos : List VideoInfo := []
  video_results : List VideoResult := []
deriving DecidableEq, Repr

/-- Iteration of ExtractStep.execute (extract.py lines 30-91) over the
discovery list: before each item the loop breaks once success_count has
reached the target; otherwise get_subtitles is called (the oracle), a truthy
text counts as a success, a falsy one is recorded with method none, and an
exception is caught and recorded with method error. Returns the list of
video ids actually attempted (in order) together with the accumulated
results. The inter-request sleeps do not change any state and are omitted. -/
def extractLoop (oracle : String → ExtractOutcome) (target : Nat) :
    List VideoInfo → Nat → List String × List VideoResult
  | [], _ => ([], [])
  | v :: rest, successCount =>
    if target ≤ successCount then ([], [])
    else
      match oracle v.video_id with
      | .ok t =>
        if t == "" then
          let next := extractLoop oracle target rest successCount
          (v.video_id :: next.1,
            { info := v, transcript := "", extraction_method := "none" } :: next.2)
        else
          let next := extractLoop oracle target rest (successCount + 1)
          (v.video_id :: next.1,
            { info := v, transcript := t, extraction_method := "subtitle" } :: next.2)
      | .exn _ =>
        let next := extractLoop oracle target rest successCount
        (v.video_id :: next.1,
          { info := v, transcript := "", extraction_method := "error" } :: next.2)

/-- Whether the oracle yields a truthy transcript for a video. -/
def successIn (oracle : String → ExtractOutcome) (v : VideoInfo) : Bool :=
  match oracle v.video_id with
  | .ok t => !(t == "")
  | .exn _ => false

/-- Number of videos in a list whose extraction would succeed. -/
def countSuccesses (oracle : String → ExtractOutcome) (l : List VideoInfo) : Nat :=
  (l.filter (successIn oracle)).length

/-- ExtractStep.execute (extract.py lines 23-113): run the loop, keep only
results with a transcript as video_results, trim context.videos to the
processed items, and fail the stage when no transcript at all was
extracted. -/
def extractStep_execute (oracle : String → ExtractOutcome) (ctx : PipelineContext) :
    Except String PipelineContext :=
  let target := ctx.max_videos
  let out := extractLoop oracle target ctx.videos 0
  let results := out.2
  let video_results := results.filter fun r => !(r.transcript == "")
  let processed := results.map fun r => r.info.video_id
  let videos' := ctx.videos.filter fun v => processed.contains v.video_id
  if video_results.isEmpty then .error "no usable content"
  else .ok { ctx with videos := videos', video_results := video_results }

/-- Mocked player oracle for the C3 witness: mismatched AI-subtitle URLs on
attempts 1-7, a matching one on attempt 8. -/
def respC3 : Nat → PlayerResponse := fun i =>
  if i < 8 then .tracks [⟨"ai-zh", "https://i0.hdslb.com/ai_subtitle/prod/999888"⟩]
  else .tracks [⟨"ai-zh", "https://i0.hdslb.com/ai_subtitle/prod/123456"⟩]

/-- Video stub used by concrete extract scenarios. -/
def mkVideo (i : String) : VideoInfo :=
  { video_id := i, title := "t", author := "a", url := "u" }

/-- First three discovered items for the C4 witness scenario. -/
def videosC4pre : List VideoInfo :=
  [mkVideo "v1", mkVideo "v2", mkVideo "v3"]

/-- Remaining seven discovered items for the C4 witness scenario. -/
def videosC4post : List VideoInfo :=
  [mkVideo "v4", mkVideo "v5", mkVideo "v6", mkVideo "v7", mkVideo "v8",
    mkVideo "v9", mkVideo "v10"]

/-- Concrete pipeline state for the C6 counterexample: two discovered
videos, target 1. -/
def ctxC6 : PipelineContext :=
  { query := "q", max_videos := 1, videos := [mkVideo "BV1", mkVideo "BV2"] }

/-! ## Stage Pipeline orchestrator (app/pipeline/orchestrator.py) -/

/-- Named pipeline step (orchestrator.py PipelineStep). -/
structure OrchStep where
  name : String
deriving DecidableEq, Repr

/-- Effect of executing one step on the shared context, as observed by the
orchestrator: normal return or a raised exception. -/
inductive StepResult where
  | ok
  | fail (msg : String)
deriving DecidableEq, Repr

/-- Observable trace of PipelineOrchestrator.run: the names of the steps
whose execute method was invoked (in order), the progress values reported
through set_progress, the steps after which the step-complete persistence
hook fired, and the final outcome (a cancellation or step exception
propagates out of run). -/
structure OrchTrace where
  executed : List String
  progressCalls : List ℚ
  persisted : List String
  result : Except String Unit
deriving DecidableEq, Repr

/-- Loop of PipelineOrchestrator.run (orchestrator.py lines 38-69). The
skipping state carries the resume marker while the Python skipping flag is
still set and is cleared when the marker's own step is reached (that step is
itself skipped); i is the 0-based index of the current step and total the
full step count. While skipping, nothing is executed, reported or persisted.
Once past skipping, cancellation (modelled as a constant flag, as the flag
is only set from outside the run) raises before the step; otherwise progress
(i / total) * 100 is reported, the step executes - an exception aborting the
run - then the persistence hook fires and progress ((i+1) / total) * 100 is
reported. -/
def orchGo (exec : String → StepResult) (cancelled : Bool) (total : Nat) :
    List OrchStep → Nat → Option String → OrchTrace
  | [], _, _ => ⟨[], [], [], .ok ()⟩
  | s :: rest, i, skipUntil =>
    match skipUntil with
    | some m =>
      orchGo exec cancelled total rest (i + 1) (if s.name = m then none else some m)
    | none =>
      if cancelled then ⟨[], [], [], .error "Pipeline was cancelled by user"⟩
      else
        let base : ℚ := ((i : ℚ) / (total : ℚ)) * 100
        match exec s.name with
        | .fail e => ⟨[s.name], [base], [], .error e⟩
        | .ok =>
          let t := orchGo exec cancelled total rest (i + 1) none
          ⟨s.name :: t.executed,
            base :: (((i : ℚ) + 1) / (total : ℚ)) * 100 :: t.progressCalls,
            s.name :: t.persisted, t.result⟩

/-- PipelineOrchestrator.run (orchestrator.py lines 31-71): total_steps is
the full step count; skipping starts exactly when a resume marker is
present. -/
def orchestratorRun (exec : String → StepResult) (cancelled : Bool)
    (steps : List OrchStep) (resume_after_step : Option String) : OrchTrace :=
  orchGo exec cancelled steps.length steps 0 resume_after_step

/-- The five stage names declared by the step classes
(steps/search.py, extract.py, summarize.py, consolidate.py, report.py),
ordered by their STEP_INDEX constants; context.py sets total_steps = 5. -/
def pipelineStages : List OrchStep :=
  [⟨"search"⟩, ⟨"extract"⟩, ⟨"summarize"⟩, ⟨"consolidate"⟩, ⟨"report"⟩]

/-! ## Autonomous Control Loop (app/agent/context.py, tools.py, loop.py) -/

/-- Per-video entry of AgentContext.video_data: the optional VideoInfo plus
transcript and summary, the empty string standing for an absent key or falsy
value (Python treats a missing key, None and the empty string alike). -/
structure VideoRecord where
  info : Option VideoInfo := none
  transcript : String := ""
  summary : String := ""
deriving DecidableEq, Repr

/-- AgentContext (app/agent/context.py), restricted to the fields the
backfill and report code reads and writes. video_data models the
insertion-ordered Python dict video_id to record as an association list;
report_json, events and progress do not feed back into the control flow of
the verified claims and are omitted. -/
structure AgentContext where
  query : String
  platform : String := "bilibili"
  max_videos : Nat := 10
  video_data : List (String × VideoRecord) := []
  search_results : List VideoInfo := []
  report_markdown : String := ""
deriving DecidableEq, Repr

/-- Python dict lookup video_data.get(vid): first entry with the key. -/
def lookupVD : List (String × VideoRecord) → String → Option VideoRecord
  | [], _ => none
  | (k, r) :: rest, vid => if k = vid then some r else lookupVD rest vid

/-- Python dict assignment video_data set at vid: replace in place when the
key exists (dicts keep insertion order on overwrite), else append. -/
def setVD (vd : List (String × VideoRecord)) (vid : String) (rec : VideoRecord) :
    List (String × VideoRecord) :=
  if (lookupVD vd vid).isSome then
    vd.map fun p => if p.1 = vid then (vid, rec) else p
  else vd ++ [(vid, rec)]

/-- video_data.get(vid, empty dict): the record, defaulting to all-absent. -/
def getRecord (ctx : AgentContext) (vid : String) : VideoRecord :=
  (lookupVD ctx.video_data vid).getD {}

/-- Count of entries with a truthy summary over raw video_data. -/
def summarizedLen (vd : List (String × VideoRecord)) : Nat :=
  (vd.filter fun p => !(p.2.summary == "")).length

/-- The Python expression sum(1 for v in ctx.video_data.values()
if v.get("summary")). -/
def summarizedCount (ctx : AgentContext) : Nat :=
  summarizedLen ctx.video_data

/-- AgentContext.get_video_info (agent/context.py lines 79-87): the stored
info when present, otherwise a scan of search_results by id. -/
def get_video_info (ctx : AgentContext) (vid : String) : Option VideoInfo :=
  match lookupVD ctx.video_data vid with
  | some r =>
    match r.info with
    | some vi => some vi
    | none => ctx.search_results.find? fun vi => vi.video_id == vid
  | none => ctx.search_results.find? fun vi => vi.video_id == vid

/-- The report markdown assembled by do_generate_report (agent/tools.py
lines 205-210): the consolidated narrative joined by newlines with a
separator and the two provenance footer lines. -/
def buildReportMarkdown (consolidated : String) (n : Nat) (query platform : String) :
    String :=
  joinNewline [consolidated, "\n\n---\n",
    "*本报告基于 " ++ toString n ++ " 个视频自动生成*\n",
    "*搜索关键词：" ++ query ++ " | 平台：" ++ platform ++ "*\n"]

/-- do_generate_report (agent/tools.py lines 151-230). The consolidation
chat call is the rep oracle; with no summarized video the function returns
an error message string without touching the report; otherwise a failing
consolidation call propagates, and a successful one installs the report
markdown (the returned status strings do not feed back into control flow
and are abbreviated). -/
def do_generate_report (rep : Except String String) (ctx : AgentContext) :
    Except String (String × AgentContext) :=
  let summarized := ctx.video_data.filter fun p => !(p.2.summary == "")
  if summarized.isEmpty then
    .ok ("错误：没有任何已摘要的视频。请先搜索、提取字幕并生成摘要。", ctx)
  else
    match rep with
    | .error e => .error e
    | .ok consolidated =>
      .ok ("综合分析报告已生成",
        { ctx with report_markdown :=
            (buildReportMarkdown consolidated summarized.length ctx.query ctx.platform) })

/-- Whether a modelled get_subtitles call raised. -/
def isExnB : ExtractOutcome → Bool
  | .exn _ => true
  | .ok _ => false

/-- Whether a modelled chat call raised. -/
def isErrorB : Except String String → Bool
  | .error _ => true
  | .ok _ => false

/-- The text of a successful modelled chat call. -/
def okText : Except String String → String
  | .ok s => s
  | .error _ => ""

/-- Candidate loop of _backfill_videos (agent/loop.py lines 293-378): for
each candidate until filled reaches the gap, extract a transcript when none
is stored (a raised get_subtitles exception propagates; a falsy text skips
the candidate; a truthy one is stored, creating the entry with
get_video_info when absent), then summarize through the llm oracle (a raised
chat exception propagates) and store the summary, incrementing filled. -/
def backfillGo (ex : String → ExtractOutcome) (llm : String → Except String String)
    (gap : Nat) : List String → Nat → AgentContext → Except String (Nat × AgentContext)
  | [], filled, ctx => .ok (filled, ctx)
  | vid :: rest, filled, ctx =>
    if gap ≤ filled then .ok (filled, ctx)
    else
      let rec0 := getRecord ctx vid
      let step1 : Except String (Option AgentContext) :=
        if rec0.transcript == "" then
          match ex vid with
          | .exn e => .error e
          | .ok text =>
            if text == "" then .ok none
            else
              let infoVal :=
                if (lookupVD ctx.video_data vid).isSome then rec0.info
                else get_video_info ctx vid
              .ok (some { ctx with video_data :=
                (setVD ctx.video_data vid
                  { info := infoVal, transcript := text, summary := rec0.summary }) })
        else .ok (some ctx)
      match step1 with
      | .error e => .error e
      | .ok none => backfillGo ex llm gap rest filled ctx
      | .ok (some ctx₁) =>
        match llm vid with
        | .error e => .error e
        | .ok summary =>
          let rec₁ := getRecord ctx₁ vid
          let ctx₂ := { ctx₁ with video_data :=
            (setVD ctx₁.video_data vid { rec₁ with summary := summary }) }
          backfillGo ex llm gap rest (filled + 1) ctx₂

/-- The discovered-but-unsummarized candidate ids, in search_results order
(agent/loop.py lines 283-287). -/
def candidateIds (ctx : AgentContext) : List String :=
  (ctx.search_results.filter fun vi =>
    (getRecord ctx vi.video_id).summary == "").map fun vi => vi.video_id

/-- _backfill_videos (agent/loop.py lines 254-388): do nothing when the
target is already met; otherwise close the gap over the candidates; when at
least one summary was added and a report already existed, clear it and
regenerate it through do_generate_report. -/
def backfill_videos (ex : String → ExtractOutcome) (llm : String → Except String String)
    (rep : Except String String) (ctx : AgentContext) : Except String AgentContext :=
  let summarized_count := summarizedCount ctx
  let target := ctx.max_videos
  if target ≤ summarized_count then .ok ctx
  else
    let gap := target - summarized_count
    match backfillGo ex llm gap (candidateIds ctx) 0 ctx with
    | .error e => .error e
    | .ok (filled, ctx') =>
      if 0 < filled ∧ ctx'.report_markdown ≠ "" then
        match do_generate_report rep { ctx' with report_markdown := "" } with
        | .error e => .error e
        | .ok (_, ctx₃) => .ok ctx₃
      else .ok ctx'

/-- Failure report installed when do_generate_report raises inside
_force_generate_report (agent/loop.py lines 401-404). -/
def failedReportMarkdown (query : String) : String :=
  "# " ++ query ++ "\n\n" ++ "分析未能完成：报告生成失败。\n"

/-- Minimal failure report synthesized when no summary exists at all
(agent/loop.py lines 406-409). -/
def noContentReportMarkdown (query : String) : String :=
  "# " ++ query ++ "\n\n" ++ "分析未能完成：未能成功获取和分析足够的视频内容。\n"

/-- _force_generate_report (agent/loop.py lines 390-409): nothing to do when
a report exists; with at least one summary, generate through
do_generate_report, falling back to the failure report when it raises; with
no summaries, install the minimal failure report. -/
def force_generate_report (rep : Except String String) (ctx : AgentContext) :
    AgentContext :=
  if ctx.report_markdown ≠ "" then ctx
  else if 0 < summarizedCount ctx then
    match do_generate_report rep ctx with
    | .ok (_, ctx') => ctx'
    | .error _ => { ctx with report_markdown := failedReportMarkdown ctx.query }
  else { ctx with report_markdown := noContentReportMarkdown ctx.query }

/-- run_agent (agent/loop.py lines 194-248): the LangChain executor run is
an arbitrary total transformation of the context (every exception it raises
is caught, adding only an error event), then _backfill_videos runs (its
exceptions propagate), then _force_generate_report runs when no report
exists. -/
def run_agent (policy : AgentContext → AgentContext) (ex : String → ExtractOutcome)
    (llm : String → Except String String) (rep : Except String String)
    (ctx : AgentContext) : Except String AgentContext :=
  let ctx₁ := policy ctx
  match backfill_videos ex llm rep ctx₁ with
  | .error e => .error e
  | .ok ctx₂ =>
    if ctx₂.report_markdown == "" then .ok (force_generate_report rep ctx₂)
    else .ok ctx₂

/-- Whether a candidate can be filled by backfill from the given context: a
stored truthy transcript, or a truthy extraction result. -/
def fillable (ex : String → ExtractOutcome) (ctx : AgentContext) (vid : String) : Bool :=
  if (getRecord ctx vid).transcript == "" then
    match ex vid with
    | .ok t => !(t == "")
    | .exn _ => false
  else true

/-- Number of fillable candidates. -/
def fillableCount (ex : String → ExtractOutcome) (ctx : AgentContext)
    (cands : List String) : Nat :=
  (cands.filter (fillable ex ctx)).length

/-- Concrete agent context for the C1 witness: nothing discovered, nothing
summarized, no report. -/
def ctxC1 : AgentContext := { query := "量子计算", max_videos := 1 }

/-- Concrete agent context for the C2 witness: the spec's closure example -
target 5, two summaries already produced, five discovered items of which
three remain unsummarized. -/
def ctxC2 : AgentContext :=
  { query := "q", max_videos := 5,
    video_data :=
      [("a", { info := some (mkVideo "a"), transcript := "ta", summary := "sa" }),
       ("b", { info := some (mkVideo "b"), transcript := "tb", summary := "sb" }),
       ("c", { info := some (mkVideo "c") }),
       ("d", { info := some (mkVideo "d") }),
       ("e", { info := some (mkVideo "e") })],
    search_results := [mkVideo "a", mkVideo "b", mkVideo "c", mkVideo "d", mkVideo "e"] }

/-- Expected pipeline state after the C6 counterexample run: the second
discovered video has been trimmed away. -/
def ctxC6after : PipelineContext :=
  { query := "q", max_videos := 1, videos := [mkVideo "BV1"],
    video_results :=
      [{ info := mkVideo "BV1", transcript := "text", extraction_method := "subtitle" }] }

end VideoMuse

namespace VideoMuse

/-- Requests served against a warm, unexpired cache issue no network call
and leave the cache unchanged. -/
lemma processWbiRequests_warm (fetch : Nat → String) (ts : List Nat) (st : WbiCache)
    (hkey : st.key ≠ "") (hts : ∀ t ∈ ts, t < st.expires) :
    processWbiRequests fetch ts st = (st, 0) := by
  induction ts with
  | nil => rfl
  | cons t ts ih =>
    have hhit : get_wbi_mixin_key fetch t st = ⟨st.key, st, false⟩ := by
      simp [get_wbi_mixin_key, hkey, hts t (by simp)]
    simp [processWbiRequests, hhit, ih fun u hu => hts u (by simp [hu])]

/-- Any retriable response makes one loop iteration either fall through to
the empty result (on the last attempt) or recurse after one RETRY_DELAY
sleep. -/
lemma subtitle_go_retriable_step (resp : Nat → PlayerResponse) (aidStr : String)
    (attempt : Nat) (rest : List Nat) (delays : List Nat)
    (h : attemptRetriable aidStr (resp attempt) = true) :
    get_subtitle_list_go resp (some aidStr) (attempt :: rest) delays =
      if rest.isEmpty then ⟨[], attempt, delays⟩
      else get_subtitle_list_go resp (some aidStr) rest (delays ++ [RETRY_DELAY_MS]) := by
  cases hr : resp attempt with
  | exn m => simp [get_subtitle_list_go, hr]
  | apiError c m => simp [get_subtitle_list_go, hr]
  | tracks subs =>
    simp only [attemptRetriable, hr] at h
    by_cases hse : subs.isEmpty = true
    · simp [get_subtitle_list_go, hr, hse]
    · have hve : (verifyTracks aidStr subs).isEmpty = true := by
        cases h' : (verifyTracks aidStr subs).isEmpty <;> simp_all
      simp [get_subtitle_list_go, hr, hse, hve]

/-- When every remaining attempt is retriable, the loop spends them all,
sleeping between consecutive attempts, and ends with the empty list. -/
lemma subtitle_go_exhaust (resp : Nat → PlayerResponse) (aidStr : String) :
    ∀ (r a : Nat) (delays : List Nat), 1 ≤ r → a + r = MAX_SUBTITLE_RETRIES + 1 →
    (∀ i, a ≤ i → i ≤ MAX_SUBTITLE_RETRIES → attemptRetriable aidStr (resp i) = true) →
    get_subtitle_list_go resp (some aidStr) (List.range' a r) delays =
      ⟨[], MAX_SUBTITLE_RETRIES, delays ++ List.replicate (r - 1) RETRY_DELAY_MS⟩ := by
  intro r
  induction r with
  | zero => intro a delays h1; omega
  | succ r ih =>
    intro a delays _ hsum hall
    have hrange : List.range' a (r + 1) = a :: List.range' (a + 1) r := by
      simp [List.range']
    have hhead : attemptRetriable aidStr (resp a) = true :=
      hall a (Nat.le_refl a) (by simp [MAX_SUBTITLE_RETRIES] at hsum ⊢; omega)
    rw [hrange, subtitle_go_retriable_step resp aidStr a _ delays hhead]
    cases r with
    | zero =>
      have ha : a = MAX_SUBTITLE_RETRIES := by omega
      simp [List.range', ha]
    | succ r' =>
      have hne : (List.range' (a + 1) (r' + 1)).isEmpty = false := by
        simp [List.range']
      rw [if_neg (by simp [hne])]
      rw [ih (a + 1) (delays ++ [RETRY_DELAY_MS]) (Nat.le_add_left 1 r') (by omega)
        (fun i hi hi2 => hall i (by omega) hi2)]
      simp [List.replicate_succ]

/-- When attempts a .. k-1 are retriable and attempt k returns a track list
with a non-empty verified sublist, the loop returns that verified list on
attempt k after k - a sleeps. -/
lemma subtitle_go_success (resp : Nat → PlayerResponse) (aidStr : String) :
    ∀ (r a k : Nat) (subs : List SubTrack) (delays : List Nat),
    a + r = MAX_SUBTITLE_RETRIES + 1 → a ≤ k → k ≤ MAX_SUBTITLE_RETRIES →
    (∀ i, a ≤ i → i < k → attemptRetriable aidStr (resp i) = true) →
    resp k = .tracks subs → (verifyTracks aidStr subs).isEmpty = false →
    get_subtitle_list_go resp (some aidStr) (List.range' a r) delays =
      ⟨verifyTracks aidStr subs, k, delays ++ List.replicate (k - a) RETRY_DELAY_MS⟩ := by
  intro r
  induction r with
  | zero =>
    intro a k subs delays hsum hak hk _ _ _
    simp [MAX_SUBTITLE_RETRIES] at hsum hk
    omega
  | succ r ih =>
    intro a k subs delays hsum hak hk hfail hresp hver
    have hrange : List.range' a (r + 1) = a :: List.range' (a + 1) r := by
      simp [List.range']
    rw [hrange]
    by_cases hcase : a = k
    · subst hcase
      have hsne : subs.isEmpty = false := by
        cases subs with
        | nil => simp [verifyTracks] at hver
        | cons x xs => rfl
      simp [get_subtitle_list_go, hresp, hsne, hver]
    · have haklt : a < k := Nat.lt_of_le_of_ne hak hcase
      have hhead : attemptRetriable aidStr (resp a) = true :=
        hfail a (Nat.le_refl a) haklt
      rw [subtitle_go_retriable_step resp aidStr a _ delays hhead]
      cases r with
      | zero => simp [MAX_SUBTITLE_RETRIES] at hsum hk; omega
      | succ r' =>
        have hne : (List.range' (a + 1) (r' + 1)).isEmpty = false := by
          simp [List.range']
        rw [if_neg (by simp [hne])]
        rw [ih (a + 1) k subs (delays ++ [RETRY_DELAY_MS]) (by omega) haklt hk
          (fun i hi hi2 => hfail i (by omega) hi2) hresp hver]
        have hrep : delays ++ [RETRY_DELAY_MS] ++ List.replicate (k - (a + 1)) RETRY_DELAY_MS =
            delays ++ List.replicate (k - a) RETRY_DELAY_MS := by
          rw [List.append_assoc]
          congr 1
          have hka : k - a = (k - (a + 1)) + 1 := by omega
          rw [hka, List.replicate_succ]
          rfl
        rw [hrep]

/-- C3 counterexample: the claim says any response whose subtitle URLs do not
embed the expected identifier is retried, but the code only enforces the
embedding for AI-subtitle URLs (those containing /ai_subtitle/): a track
whose URL lacks both the marker and the identifier is accepted on the first
attempt with no retry. -/
theorem C3_verification_retry_counterexample :
    strContains "https://example.com/sub.json" "123" = false ∧
    get_subtitle_list_from_player
        (fun _ => .tracks [⟨"zh-CN", "https://example.com/sub.json"⟩]) (some "123") =
      ⟨[⟨"zh-CN", "https://example.com/sub.json"⟩], 1, []⟩ := by
  constructor
  · decide
  · decide

/-- C3 amended: with the expected identifier known, verification drops only
tracks with an empty URL or with an AI-subtitle URL (containing the
/ai_subtitle/ marker) that does not embed the identifier; an attempt is
retried (after a fixed 1.2-second sleep) when it raises, carries a non-zero
code, carries zero tracks, or when no track survives verification, up to 8
attempts in total; a surviving track list on any attempt - including the
last - is returned, and exhausting all 8 attempts yields the empty no
subtitles result (not an error), which sends get_subtitles to the Whisper
fallback. -/
theorem C3_verification_retry_amended (resp : Nat → PlayerResponse) (aidStr : String) :
    (∀ k subs, 1 ≤ k → k ≤ MAX_SUBTITLE_RETRIES →
      (∀ i ∈ List.range' 1 (k - 1), attemptRetriable aidStr (resp i) = true) →
      resp k = .tracks subs → (verifyTracks aidStr subs).isEmpty = false →
      get_subtitle_list_from_player resp (some aidStr) =
        ⟨verifyTracks aidStr subs, k, List.replicate (k - 1) RETRY_DELAY_MS⟩) ∧
    ((∀ i ∈ List.range' 1 MAX_SUBTITLE_RETRIES, attemptRetriable aidStr (resp i) = true) →
      get_subtitle_list_from_player resp (some aidStr) =
        ⟨[], MAX_SUBTITLE_RETRIES,
          List.replicate (MAX_SUBTITLE_RETRIES - 1) RETRY_DELAY_MS⟩) ∧
    (∀ (whisper : Option String) (fetchContent : List SubTrack → Option String),
      subtitle_stage_result [] whisper fetchContent = whisper) := by
  refine ⟨?_, ?_, fun _ _ => rfl⟩
  · intro k subs hk1 hk hfail hresp hver
    have h := subtitle_go_success resp aidStr MAX_SUBTITLE_RETRIES 1 k subs []
      (by omega) hk1 hk
      (fun i hi hi2 => hfail i (by simp [List.mem_range'_1]; omega)) hresp hver
    simpa [get_subtitle_list_from_player] using h
  · intro hall
    have h := subtitle_go_exhaust resp aidStr MAX_SUBTITLE_RETRIES 1 []
      (by simp [MAX_SUBTITLE_RETRIES]) (by omega)
      (fun i hi hi2 => hall i (by simp [List.mem_range'_1, MAX_SUBTITLE_RETRIES] at hi2 ⊢; omega))
    simpa [get_subtitle_list_from_player] using h

/-- Witness for the amended C3: success on the eighth and last attempt, and
the no subtitles outcome when every attempt mismatches. -/
theorem C3_verification_retry_amended_witness :
    get_subtitle_list_from_player respC3 (some "1234") =
      ⟨verifyTracks "1234" [⟨"ai-zh", "https://i0.hdslb.com/ai_subtitle/prod/123456"⟩], 8,
        List.replicate 7 RETRY_DELAY_MS⟩ ∧
    get_subtitle_list_from_player
        (fun _ => .tracks [⟨"ai-zh", "https://i0.hdslb.com/ai_subtitle/prod/999888"⟩])
        (some "1234") =
      ⟨[], MAX_SUBTITLE_RETRIES, List.replicate (MAX_SUBTITLE_RETRIES - 1) RETRY_DELAY_MS⟩ :=
  ⟨(C3_verification_retry_amended respC3 "1234").1 8
      [⟨"ai-zh", "https://i0.hdslb.com/ai_subtitle/prod/123456"⟩]
      (by decide) (by decide) (by decide) (by decide) (by decide),
    (C3_verification_retry_amended
        (fun _ => .tracks [⟨"ai-zh", "https://i0.hdslb.com/ai_subtitle/prod/999888"⟩])
        "1234").2.1 (by decide)⟩

/-- Success count over a cons cell. -/
lemma countSuccesses_cons (oracle : String → ExtractOutcome) (v : VideoInfo)
    (l : List VideoInfo) :
    countSuccesses oracle (v :: l) =
      (if successIn oracle v then 1 else 0) + countSuccesses oracle l := by
  cases hsv : successIn oracle v <;>
    simp [countSuccesses, List.filter_cons, hsv, Nat.add_comm]

/-- Once the accumulated and pending successes of the prefix reach the
target, appending further candidates changes nothing: the loop never reaches
them. -/
lemma extractLoop_append_of_target_le (oracle : String → ExtractOutcome) (target : Nat) :
    ∀ (pre post : List VideoInfo) (succ : Nat),
    target ≤ succ + countSuccesses oracle pre →
    extractLoop oracle target (pre ++ post) succ = extractLoop oracle target pre succ := by
  intro pre
  induction pre with
  | nil =>
    intro post succ h
    have hts : target ≤ succ := by simpa [countSuccesses] using h
    cases post with
    | nil => rfl
    | cons v rest => simp [extractLoop, hts]
  | cons v pre ih =>
    intro post succ h
    by_cases hts : target ≤ succ
    · simp [extractLoop, hts]
    · rw [countSuccesses_cons] at h
      cases ho : oracle v.video_id with
      | ok t =>
        by_cases hte : (t == "") = true
        · have hsv : successIn oracle v = false := by simp [successIn, ho, hte]
          simp only [hsv, if_neg Bool.false_ne_true] at h
          simp [List.cons_append, extractLoop, hts, ho, hte,
            ih post succ (by omega)]
        · have hsv : successIn oracle v = true := by
            simp only [successIn, ho]
            simp [hte]
          rw [hsv] at h
          norm_num at h
          simp [List.cons_append, extractLoop, hts, ho, hte,
            ih post (succ + 1) (by omega)]
      | exn m =>
        have hsv : successIn oracle v = false := by simp [successIn, ho]
        simp only [hsv, if_neg Bool.false_ne_true] at h
        simp [List.cons_append, extractLoop, hts, ho, ih post succ (by omega)]

/-- The attempted ids always form a prefix of the candidate ids. -/
lemma extractLoop_attempted_prefix (oracle : String → ExtractOutcome) (target : Nat) :
    ∀ (l : List VideoInfo) (succ : Nat),
    ∃ rem, (extractLoop oracle target l succ).1 ++ rem = l.map fun v => v.video_id := by
  intro l
  induction l with
  | nil => intro succ; exact ⟨[], rfl⟩
  | cons v rest ih =>
    intro succ
    by_cases hts : target ≤ succ
    · exact ⟨(v :: rest).map fun v => v.video_id, by simp [extractLoop, hts]⟩
    · cases ho : oracle v.video_id with
      | ok t =>
        by_cases hte : (t == "") = true
        · obtain ⟨rem, hr⟩ := ih succ
          exact ⟨rem, by simp [extractLoop, hts, ho, hte, hr]⟩
        · obtain ⟨rem, hr⟩ := ih (succ + 1)
          exact ⟨rem, by simp [extractLoop, hts, ho, hte, hr]⟩
      | exn m =>
        obtain ⟨rem, hr⟩ := ih succ
        exact ⟨rem, by simp [extractLoop, hts, ho, hr]⟩

/-- The per-item results and the attempted-id list stay aligned: the
processed ids are exactly the attempted ids. -/
lemma extractLoop_processed_eq_attempted (oracle : String → ExtractOutcome) (target : Nat) :
    ∀ (l : List VideoInfo) (succ : Nat),
    ((extractLoop oracle target l succ).2.map fun r => r.info.video_id)
      = (extractLoop oracle target l succ).1 := by
  intro l
  induction l with
  | nil => intro succ; rfl
  | cons v rest ih =>
    intro succ
    by_cases hts : target ≤ succ
    · simp [extractLoop, hts]
    · cases ho : oracle v.video_id with
      | ok t =>
        by_cases hte : (t == "") = true <;> simp [extractLoop, hts, ho, hte, ih]
      | exn m => simp [extractLoop, hts, ho, ih]

/-- C4: once a prefix of the discovery list already contains target_count
successful transcripts, running the extract loop over the full list is
identical to running it over that prefix alone - the later items are never
attempted - and every attempted id comes from the prefix. -/
theorem C4_extract_early_stop (oracle : String → ExtractOutcome) (target : Nat)
    (pre post : List VideoInfo) (h : target ≤ countSuccesses oracle pre) :
    extractLoop oracle target (pre ++ post) 0 = extractLoop oracle target pre 0 ∧
    ∃ rem, (extractLoop oracle target (pre ++ post) 0).1 ++ rem
        = pre.map fun v => v.video_id := by
  have heq := extractLoop_append_of_target_le oracle target pre post 0 (by omega)
  refine ⟨heq, ?_⟩
  obtain ⟨rem, hr⟩ := extractLoop_attempted_prefix oracle target pre 0
  exact ⟨rem, by rw [heq]; exact hr⟩

/-- Witness for C4: ten discovered items, target 3, items 1-3 succeed;
the loop over all ten equals the loop over the first three, so items 4-10
are never attempted. -/
theorem C4_extract_early_stop_witness :
    extractLoop (fun _ => .ok "text") 3 (videosC4pre ++ videosC4post) 0 =
      extractLoop (fun _ => .ok "text") 3 videosC4pre 0 ∧
    ∃ rem, (extractLoop (fun _ => .ok "text") 3 (videosC4pre ++ videosC4post) 0).1 ++ rem
        = videosC4pre.map fun v => v.video_id :=
  C4_extract_early_stop (fun _ => .ok "text") 3 videosC4pre videosC4post (by decide)

/-- C6 counterexample: the claim says a discovered ContentItem is never
deleted from the run's discovery state mid-run, but ExtractStep.execute
(extract.py lines 95-99) trims context.videos to the processed items: with
two discovered videos and target 1 the second video is discovered yet
removed. -/
theorem C6_retention_counterexample :
    ∃ ctx', extractStep_execute (fun _ => .ok "text") ctxC6 = .ok ctx' ∧
      mkVideo "BV2" ∈ ctxC6.videos ∧ mkVideo "BV2" ∉ ctx'.videos :=
  ⟨_, rfl, by decide, by decide⟩

/-- C6 amended: Extract enriches items into results without deleting any
processed item, but at the end of the stage the discovery list is trimmed to
exactly the attempted (processed) items, in discovery order; every attempted
item is retained and every unattempted discovered item is removed;
video_results keeps exactly the processed items with a truthy transcript. -/
theorem C6_retention_amended (oracle : String → ExtractOutcome)
    (ctx ctx' : PipelineContext) (h : extractStep_execute oracle ctx = .ok ctx') :
    ctx'.videos = ctx.videos.filter
      (fun v => (extractLoop oracle ctx.max_videos ctx.videos 0).1.contains v.video_id) ∧
    (∀ v ∈ ctx.videos,
      (extractLoop oracle ctx.max_videos ctx.videos 0).1.contains v.video_id = true →
        v ∈ ctx'.videos) ∧
    ctx'.video_results =
      (extractLoop oracle ctx.max_videos ctx.videos 0).2.filter
        fun r => !(r.transcript == "") := by
  have hids := extractLoop_processed_eq_attempted oracle ctx.max_videos ctx.videos 0
  simp only [extractStep_execute] at h
  split at h
  · exact absurd h (by simp)
  · have hctx : ctx' = { ctx with
        videos := ctx.videos.filter fun v =>
          ((extractLoop oracle ctx.max_videos ctx.videos 0).2.map
            fun r => r.info.video_id).contains v.video_id
        video_results := (extractLoop oracle ctx.max_videos ctx.videos 0).2.filter
          fun r => !(r.transcript == "") } := by
      rw [Except.ok.injEq] at h
      exact h.symm
    subst hctx
    refine ⟨by rw [hids], ?_, rfl⟩
    intro v hv hcont
    simp only [List.mem_filter]
    exact ⟨hv, by rw [hids]; exact hcont⟩

/-- Witness for the amended C6 at the two-video, target-1 scenario. -/
theorem C6_retention_amended_witness :
    (ctxC6.videos.filter
      (fun v => (extractLoop (fun _ => .ok "text") ctxC6.max_videos ctxC6.videos 0).1.contains
        v.video_id)) = [mkVideo "BV1"] ∧
    ∀ v ∈ ctxC6.videos,
      (extractLoop (fun _ => .ok "text") ctxC6.max_videos ctxC6.videos 0).1.contains
          v.video_id = true →
        v ∈ [mkVideo "BV1"] := by
  have h := C6_retention_amended (fun _ => .ok "text") ctxC6 ctxC6after rfl
  refine ⟨?_, ?_⟩
  · rw [← h.1]
    rfl
  · intro v hv hc
    exact h.2.1 v hv hc

/-- While the resume marker has not been matched, every step is skipped
without executing, reporting or persisting anything, and the marker's own
step is skipped as well; execution resumes right after it. -/
lemma orchGo_skip_through (exec : String → StepResult) (cancelled : Bool) (total : Nat)
    (m : String) :
    ∀ (pre : List OrchStep) (s : OrchStep) (rest : List OrchStep) (i : Nat),
    (∀ p ∈ pre, p.name ≠ m) → s.name = m →
    orchGo exec cancelled total (pre ++ s :: rest) i (some m) =
      orchGo exec cancelled total rest (i + pre.length + 1) none := by
  intro pre
  induction pre with
  | nil =>
    intro s rest i _ hs
    simp [orchGo, hs]
  | cons p pre ih =>
    intro s rest i hpre hs
    have hp : p.name ≠ m := hpre p (by simp)
    have hrec := ih s rest (i + 1) (fun q hq => hpre q (by simp [hq])) hs
    have harith : i + 1 + pre.length + 1 = i + (p :: pre).length + 1 := by
      simp [List.length_cons]
      omega
    rw [harith] at hrec
    simp only [List.cons_append, orchGo, if_neg hp]
    exact hrec

/-- When no step carries the marker name, skipping consumes the whole list
and the run ends successfully with an empty trace. -/
lemma orchGo_skip_all (exec : String → StepResult) (cancelled : Bool) (total : Nat)
    (m : String) :
    ∀ (l : List OrchStep) (i : Nat), (∀ p ∈ l, p.name ≠ m) →
    orchGo exec cancelled total l i (some m) = ⟨[], [], [], .ok ()⟩ := by
  intro l
  induction l with
  | nil => intro i _; rfl
  | cons p l ih =>
    intro i hl
    have hp : p.name ≠ m := hl p (by simp)
    simp only [orchGo, if_neg hp]
    exact ih (i + 1) fun q hq => hl q (by simp [hq])

/-- An uncancelled run in which every step succeeds executes and persists
exactly the listed steps in order and ends successfully. -/
lemma orchGo_all_ok (exec : String → StepResult) (total : Nat) :
    ∀ (l : List OrchStep) (i : Nat), (∀ st ∈ l, exec st.name = .ok) →
    (orchGo exec false total l i none).executed = l.map (fun st => st.name) ∧
    (orchGo exec false total l i none).persisted = l.map (fun st => st.name) ∧
    (orchGo exec false total l i none).result = .ok () := by
  intro l
  induction l with
  | nil => intro i _; exact ⟨rfl, rfl, rfl⟩
  | cons s l ih =>
    intro i hl
    have hs : exec s.name = .ok := hl s (by simp)
    have hr := ih (i + 1) fun st hst => hl st (by simp [hst])
    simp [orchGo, hs, hr.1, hr.2.1, hr.2.2]

/-- C5: with a resume marker naming a stage of the pipeline (its first
occurrence), the orchestrator skips every stage up to and including that
stage and continues exactly as a run of the remaining stages starting at the
next index; in particular, when all remaining stages succeed, precisely the
stages after the marker are executed and persisted and the run succeeds. -/
theorem C5_resume_skip_semantics (exec : String → StepResult) (pre post : List OrchStep)
    (s : OrchStep) (m : String) (hname : s.name = m) (hpre : ∀ p ∈ pre, p.name ≠ m) :
    orchestratorRun exec false (pre ++ s :: post) (some m) =
      orchGo exec false (pre ++ s :: post).length post (pre.length + 1) none ∧
    ((∀ st ∈ post, exec st.name = .ok) →
      (orchestratorRun exec false (pre ++ s :: post) (some m)).executed =
        post.map (fun st => st.name) ∧
      (orchestratorRun exec false (pre ++ s :: post) (some m)).persisted =
        post.map (fun st => st.name) ∧
      (orchestratorRun exec false (pre ++ s :: post) (some m)).result = .ok ()) := by
  have hskip := orchGo_skip_through exec false (pre ++ s :: post).length m pre s post 0
    hpre hname
  have heq : orchestratorRun exec false (pre ++ s :: post) (some m) =
      orchGo exec false (pre ++ s :: post).length post (pre.length + 1) none := by
    simpa [orchestratorRun, Nat.add_comm] using hskip
  refine ⟨heq, fun hok => ?_⟩
  have h := orchGo_all_ok exec (pre ++ s :: post).length post (pre.length + 1) hok
  rw [heq]
  exact h

/-- Witness for C5: the five production stages with resume marker extract;
neither search nor extract runs, the run begins at summarize and executes
exactly summarize, consolidate, report. -/
theorem C5_resume_skip_semantics_witness :
    (orchestratorRun (fun _ => .ok) false
        ([⟨"search"⟩] ++ (⟨"extract"⟩ : OrchStep) :: [⟨"summarize"⟩, ⟨"consolidate"⟩, ⟨"report"⟩])
        (some "extract")).executed = ["summarize", "consolidate", "report"] ∧
    (orchestratorRun (fun _ => .ok) false
        ([⟨"search"⟩] ++ (⟨"extract"⟩ : OrchStep) :: [⟨"summarize"⟩, ⟨"consolidate"⟩, ⟨"report"⟩])
        (some "extract")).result = .ok () := by
  have h := (C5_resume_skip_semantics (fun _ => .ok) [⟨"search"⟩]
    [⟨"summarize"⟩, ⟨"consolidate"⟩, ⟨"report"⟩] ⟨"extract"⟩ "extract" rfl
    (by decide)).2 (fun st _ => rfl)
  exact ⟨by rw [h.1]; rfl, h.2.2⟩

/-- C10: a resume marker matching none of the stage names makes the run
skip every stage: nothing executes, no progress is reported, the
persistence hook never fires, and the run returns as a success. -/
theorem C10_unknown_marker_skips_all (exec : String → StepResult) (cancelled : Bool)
    (steps : List OrchStep) (m : String) (h : ∀ st ∈ steps, st.name ≠ m) :
    orchestratorRun exec cancelled steps (some m) = ⟨[], [], [], .ok ()⟩ :=
  orchGo_skip_all exec cancelled steps.length m steps 0 h

/-- Witness for C10: the five production stages with a marker that matches
no stage name. -/
theorem C10_unknown_marker_skips_all_witness :
    orchestratorRun (fun _ => .fail "exec must not be reached") true pipelineStages
      (some "nonexistent") = ⟨[], [], [], .ok ()⟩ :=
  C10_unknown_marker_skips_all (fun _ => .fail "exec must not be reached") true
    pipelineStages "nonexistent" (by decide)

/-- A string of positive length is not the empty string. -/
lemma ne_empty_of_length_pos {s : String} (h : 0 < s.length) : s ≠ "" := by
  intro he
  subst he
  exact absurd h (by decide)

/-- An append whose right part is non-empty is non-empty. -/
lemma append_ne_empty_of_right (a b : String) (hb : b ≠ "") : a ++ b ≠ "" := by
  intro h
  have hlen := congrArg String.length h
  rw [String.length_append] at hlen
  exact hb (by
    have hb0 : b.length = 0 := by
      have h0 : (0 : Nat) = String.length "" := by decide
      omega
    cases b with
    | mk data =>
      cases data with
      | nil => rfl
      | cons x xs => simp [String.length, List.length] at hb0)

/-- The four-line newline join used by the report builder is never empty. -/
lemma joinNewline_four_ne_empty (a b c d : String) : joinNewline [a, b, c, d] ≠ "" := by
  intro h
  have hdata := congrArg String.data h
  simp [joinNewline, List.intercalate, List.intersperse] at hdata

/-- The assembled report markdown is never empty. -/
lemma buildReportMarkdown_ne_empty (c : String) (n : Nat) (q p : String) :
    buildReportMarkdown c n q p ≠ "" :=
  joinNewline_four_ne_empty _ _ _ _

/-- The failure report markdown is never empty. -/
lemma failedReportMarkdown_ne_empty (q : String) : failedReportMarkdown q ≠ "" :=
  append_ne_empty_of_right _ _ (by decide)

/-- The minimal no-content report markdown is never empty. -/
lemma noContentReportMarkdown_ne_empty (q : String) : noContentReportMarkdown q ≠ "" :=
  append_ne_empty_of_right _ _ (by decide)

/-- With at least one summarized video, do_generate_report either propagates
the consolidation error or installs the built report markdown. -/
lemma do_generate_report_of_pos (rep : Except String String) (ctx : AgentContext)
    (hpos : 0 < summarizedCount ctx) :
    (∀ e, rep = .error e → do_generate_report rep ctx = .error e) ∧
    (∀ rv, rep = .ok rv → do_generate_report rep ctx =
      .ok ("综合分析报告已生成",
        { ctx with report_markdown :=
            buildReportMarkdown rv (summarizedCount ctx) ctx.query ctx.platform })) := by
  have hne : (ctx.video_data.filter fun p => !(p.2.summary == "")).isEmpty = false := by
    cases hfe : ctx.video_data.filter fun p => !(p.2.summary == "") with
    | nil => simp [summarizedCount, summarizedLen, hfe] at hpos
    | cons x xs => rfl
  constructor <;> intro r hr <;>
    simp [do_generate_report, hne, hr, summarizedCount, summarizedLen]

/-- Properties of _force_generate_report on a context with no report: the
result always carries a non-empty report, and with no summaries at all it is
exactly the minimal no-content failure report. -/
lemma force_generate_report_spec (rep : Except String String) (ctx : AgentContext)
    (h : ctx.report_markdown = "") :
    (force_generate_report rep ctx).report_markdown ≠ "" ∧
    (summarizedCount ctx = 0 →
      force_generate_report rep ctx =
        { ctx with report_markdown := noContentReportMarkdown ctx.query }) := by
  by_cases hs : 0 < summarizedCount ctx
  · refine ⟨?_, fun h0 => absurd h0 (by omega)⟩
    cases hrep : rep with
    | error e =>
      have hd := (do_generate_report_of_pos (.error e) ctx hs).1 e rfl
      have hforce : force_generate_report (.error e) ctx =
          { ctx with report_markdown := failedReportMarkdown ctx.query } := by
        unfold force_generate_report
        rw [if_neg (by simp [h]), if_pos hs, hd]
      rw [hforce]
      exact failedReportMarkdown_ne_empty _
    | ok rv =>
      have hd := (do_generate_report_of_pos (.ok rv) ctx hs).2 rv rfl
      have hforce : force_generate_report (.ok rv) ctx =
          { ctx with report_markdown :=
              buildReportMarkdown rv (summarizedCount ctx) ctx.query ctx.platform } := by
        unfold force_generate_report
        rw [if_neg (by simp [h]), if_pos hs, hd]
      rw [hforce]
      exact buildReportMarkdown_ne_empty _ _ _ _
  · have h0 : summarizedCount ctx = 0 := by omega
    refine ⟨?_, fun _ => by simp [force_generate_report, h, hs]⟩
    simp [force_generate_report, h, hs]
    exact noContentReportMarkdown_ne_empty _

/-- C1: whatever the policy did and however the loop ended, once the
backfill procedure returns, run_agent ends with a non-empty report: a run
that completes carries non-empty report markdown; when no report exists
force-generation always installs a non-empty one, and when additionally no
summary exists at all it installs exactly the minimal no-content failure
report. -/
theorem C1_terminal_force_report (policy : AgentContext → AgentContext)
    (ex : String → ExtractOutcome) (llm : String → Except String String)
    (rep : Except String String) (ctx ctx' : AgentContext)
    (h : run_agent policy ex llm rep ctx = .ok ctx') :
    ctx'.report_markdown ≠ "" ∧
    (∀ c : AgentContext, c.report_markdown = "" →
      (force_generate_report rep c).report_markdown ≠ "") ∧
    (∀ c : AgentContext, c.report_markdown = "" → summarizedCount c = 0 →
      force_generate_report rep c =
        { c with report_markdown := noContentReportMarkdown c.query }) := by
  refine ⟨?_, fun c hc => (force_generate_report_spec rep c hc).1,
    fun c hc h0 => (force_generate_report_spec rep c hc).2 h0⟩
  simp only [run_agent] at h
  split at h
  · exact absurd h (by simp)
  · rename_i ctx₂ heq
    split at h
    · rename_i hcond
      rw [Except.ok.injEq] at h
      rw [← h]
      exact (force_generate_report_spec rep ctx₂ (by simpa using hcond)).1
    · rename_i hcond
      rw [Except.ok.injEq] at h
      rw [← h]
      intro he
      exact hcond (by rw [he]; rfl)

/-- Witness for C1: an empty run whose policy does nothing and whose
consolidation call fails still ends with a (minimal failure) report. -/
theorem C1_terminal_force_report_witness :
    ∃ c, run_agent id (fun _ => .ok "") (fun _ => .error "llm down")
        (.error "llm down") ctxC1 = .ok c ∧ c.report_markdown ≠ "" :=
  ⟨_, rfl, (C1_terminal_force_report id (fun _ => .ok "") (fun _ => .error "llm down")
    (.error "llm down") ctxC1 _ rfl).1⟩

/-- A key is absent exactly when lookup yields none. -/
lemma lookupVD_eq_none_iff (vd : List (String × VideoRecord)) (k : String) :
    lookupVD vd k = none ↔ k ∉ vd.map Prod.fst := by
  induction vd with
  | nil => simp [lookupVD]
  | cons p rest ih =>
    obtain ⟨k₀, r₀⟩ := p
    by_cases hk : k₀ = k <;> simp [lookupVD, hk, ih]
    tauto

/-- Replacing at a key not occurring in the list changes nothing. -/
lemma map_replace_id (l : List (String × VideoRecord)) (k : String) (r : VideoRecord)
    (h : k ∉ l.map Prod.fst) : (l.map fun p => if p.1 = k then (k, r) else p) = l := by
  induction l with
  | nil => rfl
  | cons p rest ih =>
    have hp : p.1 ≠ k := by
      intro hh
      exact h (by simp [← hh])
    have hrest : k ∉ rest.map Prod.fst := fun hh => h (by simp [hh])
    simp [hp, ih hrest]

/-- Lookup after in-place replacement at the same key. -/
lemma lookupVD_replace_self (vd : List (String × VideoRecord)) (k : String)
    (r : VideoRecord) (h : (lookupVD vd k).isSome) :
    lookupVD (vd.map fun p => if p.1 = k then (k, r) else p) k = some r := by
  induction vd with
  | nil => simp [lookupVD] at h
  | cons p rest ih =>
    obtain ⟨k₀, r₀⟩ := p
    simp only [List.map_cons]
    by_cases hk : k₀ = k
    · subst hk
      rw [if_pos (show ((k₀, r₀) : String × VideoRecord).1 = k₀ from rfl)]
      simp [lookupVD]
    · rw [if_neg (show ¬ ((k₀, r₀) : String × VideoRecord).1 = k from hk)]
      have h' : (lookupVD rest k).isSome := by
        simpa [lookupVD, hk] using h
      simp only [lookupVD]
      rw [if_neg hk]
      exact ih h'

/-- Lookup of another key is unaffected by in-place replacement. -/
lemma lookupVD_replace_ne (vd : List (String × VideoRecord)) (k : String)
    (r : VideoRecord) (k' : String) (hne : k' ≠ k) :
    lookupVD (vd.map fun p => if p.1 = k then (k, r) else p) k' = lookupVD vd k' := by
  induction vd with
  | nil => rfl
  | cons p rest ih =>
    obtain ⟨k₀, r₀⟩ := p
    simp only [List.map_cons]
    by_cases hk : k₀ = k
    · subst hk
      rw [if_pos (show ((k₀, r₀) : String × VideoRecord).1 = k₀ from rfl)]
      simp only [lookupVD]
      rw [if_neg (show ¬ k₀ = k' from fun hh => hne (hh.symm)),
        if_neg (show ¬ k₀ = k' from fun hh => hne (hh.symm)), ih]
    · rw [if_neg (show ¬ ((k₀, r₀) : String × VideoRecord).1 = k from hk)]
      simp only [lookupVD]
      rw [ih]

/-- Lookup after appending a fresh entry at the same key. -/
lemma lookupVD_append_self (vd : List (String × VideoRecord)) (k : String)
    (r : VideoRecord) (h : lookupVD vd k = none) :
    lookupVD (vd ++ [(k, r)]) k = some r := by
  induction vd with
  | nil => simp [lookupVD]
  | cons p rest ih =>
    obtain ⟨k₀, r₀⟩ := p
    by_cases hk : k₀ = k
    · simp [lookupVD, hk] at h
    · have h' : lookupVD rest k = none := by simpa [lookupVD, hk] using h
      simp only [List.cons_append, lookupVD]
      rw [if_neg hk]
      exact ih h'

/-- Lookup of another key is unaffected by appending a fresh entry. -/
lemma lookupVD_append_ne (vd : List (String × VideoRecord)) (k : String)
    (r : VideoRecord) (k' : String) (hne : k' ≠ k) :
    lookupVD (vd ++ [(k, r)]) k' = lookupVD vd k' := by
  induction vd with
  | nil =>
    simp only [List.nil_append, lookupVD]
    rw [if_neg (show ¬ k = k' from fun hh => hne (hh.symm))]
  | cons p rest ih =>
    obtain ⟨k₀, r₀⟩ := p
    simp only [List.cons_append, lookupVD]
    exact congrArg (fun x => if k₀ = k' then some r₀ else x) ih

/-- Lookup after the dict-style set at the same key. -/
lemma lookupVD_setVD_self (vd : List (String × VideoRecord)) (k : String)
    (r : VideoRecord) : lookupVD (setVD vd k r) k = some r := by
  by_cases h : (lookupVD vd k).isSome
  · simp only [setVD, if_pos h]
    exact lookupVD_replace_self vd k r h
  · have hn : lookupVD vd k = none := by
      cases hh : lookupVD vd k
      · rfl
      · simp [hh] at h
    simp only [setVD, hn, Option.isSome_none, Bool.false_eq_true, if_neg]
    exact lookupVD_append_self vd k r hn

/-- Lookup of another key is unaffected by the dict-style set. -/
lemma lookupVD_setVD_ne (vd : List (String × VideoRecord)) (k : String)
    (r : VideoRecord) (k' : String) (hne : k' ≠ k) :
    lookupVD (setVD vd k r) k' = lookupVD vd k' := by
  by_cases h : (lookupVD vd k).isSome
  · simp only [setVD, if_pos h]
    exact lookupVD_replace_ne vd k r k' hne
  · simp only [setVD, h, if_neg]
    exact lookupVD_append_ne vd k r k' hne

/-- In-place replacement keeps the key list. -/
lemma keys_replace (vd : List (String × VideoRecord)) (k : String) (r : VideoRecord) :
    ((vd.map fun p => if p.1 = k then (k, r) else p).map Prod.fst) = vd.map Prod.fst := by
  induction vd with
  | nil => rfl
  | cons p rest ih =>
    obtain ⟨k₀, r₀⟩ := p
    simp only [List.map_cons]
    by_cases hk : k₀ = k
    · subst hk
      rw [if_pos (show ((k₀, r₀) : String × VideoRecord).1 = k₀ from rfl)]
      simp [ih]
    · rw [if_neg (show ¬ ((k₀, r₀) : String × VideoRecord).1 = k from hk)]
      simp [ih]

/-- The dict-style set preserves distinctness of the keys. -/
lemma nodup_keys_setVD (vd : List (String × VideoRecord)) (k : String) (r : VideoRecord)
    (hnd : (vd.map Prod.fst).Nodup) : ((setVD vd k r).map Prod.fst).Nodup := by
  by_cases h : (lookupVD vd k).isSome
  · simp only [setVD, if_pos h]
    rw [keys_replace]
    exact hnd
  · have hn : lookupVD vd k = none := by
      cases hh : lookupVD vd k
      · rfl
      · simp [hh] at h
    have hnotin : k ∉ vd.map Prod.fst := (lookupVD_eq_none_iff vd k).mp hn
    have hset : setVD vd k r = vd ++ [(k, r)] := by simp [setVD, hn]
    rw [hset, List.map_append]
    simp only [List.map_cons, List.map_nil]
    rw [List.nodup_append]
    refine ⟨hnd, List.nodup_singleton k, ?_⟩
    intro a ha hb
    have hak : a = k := by simpa using hb
    exact hnotin (hak ▸ ha)

/-- Summarized-entry count after an in-place replacement whose key is
distinct from every other key. -/
lemma summarizedLen_replace (vd : List (String × VideoRecord)) (k : String)
    (r old : VideoRecord) (hnd : (vd.map Prod.fst).Nodup)
    (hold : lookupVD vd k = some old) :
    summarizedLen (vd.map fun p => if p.1 = k then (k, r) else p) +
      (if old.summary == "" then 0 else 1) =
    summarizedLen vd + (if r.summary == "" then 0 else 1) := by
  induction vd with
  | nil => simp [lookupVD] at hold
  | cons p rest ih =>
    obtain ⟨k₀, r₀⟩ := p
    simp only [List.map_cons]
    by_cases hk : k₀ = k
    · subst hk
      have hold' : old = r₀ := by
        simp [lookupVD] at hold
        exact hold.symm
      have hknotin : k₀ ∉ rest.map Prod.fst := by
        simp only [List.map_cons, List.nodup_cons] at hnd
        exact hnd.1
      rw [if_pos (show ((k₀, r₀) : String × VideoRecord).1 = k₀ from rfl)]
      rw [map_replace_id rest k₀ r hknotin, hold']
      simp only [summarizedLen, List.filter_cons]
      cases hr : r.summary == "" <;> cases hro : r₀.summary == "" <;>
        simp [hr, hro]
    · have hold' : lookupVD rest k = some old := by
        simpa [lookupVD, hk] using hold
      have hnd' : (rest.map Prod.fst).Nodup := by
        simp only [List.map_cons, List.nodup_cons] at hnd
        exact hnd.2
      have ih' := ih hnd' hold'
      rw [if_neg (show ¬ ((k₀, r₀) : String × VideoRecord).1 = k from hk)]
      simp only [summarizedLen, List.filter_cons] at ih' ⊢
      cases hro : r₀.summary == "" <;> simp [hro] at ih' ⊢ <;> omega

/-- Summarized-entry count after appending a fresh entry. -/
lemma summarizedLen_append (vd : List (String × VideoRecord)) (k : String)
    (r : VideoRecord) :
    summarizedLen (vd ++ [(k, r)]) =
      summarizedLen vd + (if r.summary == "" then 0 else 1) := by
  simp only [summarizedLen, List.filter_append]
  cases hr : r.summary == "" <;> simp [List.filter_cons, hr]

/-- Records of other keys are unchanged by a dict-style set. -/
lemma getRecord_set_ne (ctx : AgentContext) (vid : String) (rec : VideoRecord)
    (c : String) (hne : c ≠ vid) :
    getRecord { ctx with video_data := (setVD ctx.video_data vid rec) } c =
      getRecord ctx c := by
  simp only [getRecord]
  rw [lookupVD_setVD_ne ctx.video_data vid rec c hne]

/-- The record of the set key is the stored one. -/
lemma getRecord_set_self (ctx : AgentContext) (vid : String) (rec : VideoRecord) :
    getRecord { ctx with video_data := (setVD ctx.video_data vid rec) } vid = rec := by
  simp only [getRecord]
  rw [lookupVD_setVD_self]
  rfl

/-- Fillability of a candidate list only depends on the records of its
members. -/
lemma fillableCount_congr (ex : String → ExtractOutcome) (ctx₁ ctx₂ : AgentContext)
    (l : List String) (h : ∀ c ∈ l, getRecord ctx₁ c = getRecord ctx₂ c) :
    fillableCount ex ctx₁ l = fillableCount ex ctx₂ l := by
  unfold fillableCount
  have hf : l.filter (fillable ex ctx₁) = l.filter (fillable ex ctx₂) := by
    apply List.filter_congr
    intro c hc
    simp [fillable, h c hc]
  rw [hf]

/-- Installing a truthy summary on a stored record whose summary was empty
adds exactly one summarized entry and keeps the keys distinct. -/
lemma summarize_update_spec (ctx₁ : AgentContext) (c : String) (s : String)
    (hnd : (ctx₁.video_data.map Prod.fst).Nodup)
    (hlk : (lookupVD ctx₁.video_data c).isSome)
    (hsum : (getRecord ctx₁ c).summary = "") (hs : (s == "") = false) :
    summarizedLen (setVD ctx₁.video_data c { getRecord ctx₁ c with summary := s })
      = summarizedLen ctx₁.video_data + 1 ∧
    ((setVD ctx₁.video_data c
      { getRecord ctx₁ c with summary := s }).map Prod.fst).Nodup := by
  refine ⟨?_, nodup_keys_setVD _ _ _ hnd⟩
  obtain ⟨old, hold⟩ : ∃ old, lookupVD ctx₁.video_data c = some old := by
    cases hh : lookupVD ctx₁.video_data c
    · simp [hh] at hlk
    · exact ⟨_, rfl⟩
  have hgr : getRecord ctx₁ c = old := by simp [getRecord, hold]
  have hold_sum : old.summary = "" := hgr ▸ hsum
  have hset : setVD ctx₁.video_data c { getRecord ctx₁ c with summary := s } =
      ctx₁.video_data.map fun p =>
        if p.1 = c then (c, { getRecord ctx₁ c with summary := s }) else p := by
    simp [setVD, hold]
  have hrepl := summarizedLen_replace ctx₁.video_data c
    { getRecord ctx₁ c with summary := s } old hnd hold
  rw [if_pos (show (old.summary == "") = true by simp [hold_sum]),
    if_neg (show ¬ ((({ getRecord ctx₁ c with summary := s } : VideoRecord)).summary == "") = true by simp [hs])]
    at hrepl
  rw [hset]
  omega

/-- Storing a truthy transcript with an unchanged empty summary keeps the
summarized count and the key distinctness, and makes the key present. -/
lemma transcript_update_spec (ctx : AgentContext) (c : String)
    (infoVal : Option VideoInfo) (t : String)
    (hnd : (ctx.video_data.map Prod.fst).Nodup)
    (hsum : (getRecord ctx c).summary = "") :
    summarizedLen (setVD ctx.video_data c
        { info := infoVal, transcript := t, summary := (getRecord ctx c).summary })
      = summarizedLen ctx.video_data ∧
    ((setVD ctx.video_data c
        { info := infoVal, transcript := t,
          summary := (getRecord ctx c).summary }).map Prod.fst).Nodup ∧
    (lookupVD (setVD ctx.video_data c
        { info := infoVal, transcript := t,
          summary := (getRecord ctx c).summary }) c).isSome := by
  refine ⟨?_, nodup_keys_setVD _ _ _ hnd, by rw [lookupVD_setVD_self]; rfl⟩
  cases hold : lookupVD ctx.video_data c with
  | some old =>
    have hgr : getRecord ctx c = old := by simp [getRecord, hold]
    have hold_sum : old.summary = "" := hgr ▸ hsum
    have hset : setVD ctx.video_data c
        { info := infoVal, transcript := t, summary := (getRecord ctx c).summary } =
        ctx.video_data.map fun p =>
          if p.1 = c then (c, ({ info := infoVal, transcript := t, summary := (getRecord ctx c).summary } : VideoRecord)) else p := by
      simp [setVD, hold]
    have hrepl := summarizedLen_replace ctx.video_data c
      { info := infoVal, transcript := t, summary := (getRecord ctx c).summary }
      old hnd hold
    rw [if_pos (show (old.summary == "") = true by simp [hold_sum]),
      if_pos (show ((({ info := infoVal, transcript := t, summary := (getRecord ctx c).summary } : VideoRecord)).summary == "") = true by simp [hsum])]
      at hrepl
    rw [hset]
    omega
  | none =>
    have hset : setVD ctx.video_data c
        { info := infoVal, transcript := t, summary := (getRecord ctx c).summary } =
        ctx.video_data ++ [(c, ({ info := infoVal, transcript := t, summary := (getRecord ctx c).summary } : VideoRecord))] := by
      simp [setVD, hold]
    rw [hset, summarizedLen_append]
    simp [hsum]

/-- A non-empty string compares beq-false with the empty string. -/
lemma beq_empty_false_of_ne {s : String} (h : s ≠ "") : (s == "") = false := by
  cases hb : s == "" with
  | false => rfl
  | true => exact absurd (by simpa using hb) h

/-- Shared final half of one backfill candidate: from an intermediate
context that stores the candidate with an empty summary (and agrees with the
original context everywhere else that matters), installing the successful
summary and running the loop on the remaining candidates fills
min (gap - filled) (fillable candidates) in total. -/
lemma backfillGo_fill_aux (ex : String → ExtractOutcome)
    (llm : String → Except String String) (gap : Nat) (c : String)
    (rest : List String) (filled : Nat) (ctx ctx₁ : AgentContext) (s : String)
    (ih : ∀ (filled : Nat) (ctx : AgentContext), rest.Nodup →
      (ctx.video_data.map Prod.fst).Nodup →
      (∀ x ∈ rest, isExnB (ex x) = false) →
      (∀ x ∈ rest, isErrorB (llm x) = false ∧ okText (llm x) ≠ "") →
      (∀ x ∈ rest, (getRecord ctx x).summary = "") →
      ∃ ctx', backfillGo ex llm gap rest filled ctx =
          .ok (filled + min (gap - filled) (fillableCount ex ctx rest), ctx') ∧
        summarizedCount ctx' =
          summarizedCount ctx + min (gap - filled) (fillableCount ex ctx rest) ∧
        ctx'.report_markdown = ctx.report_markdown ∧ ctx'.query = ctx.query ∧
        ctx'.platform = ctx.platform ∧ ctx'.max_videos = ctx.max_videos ∧
        (ctx'.video_data.map Prod.fst).Nodup)
    (hrestnd : rest.Nodup) (hcnotin : c ∉ rest)
    (hex : ∀ x ∈ rest, isExnB (ex x) = false)
    (hllm : ∀ x ∈ rest, isErrorB (llm x) = false ∧ okText (llm x) ≠ "")
    (hsum : ∀ x ∈ rest, (getRecord ctx x).summary = "")
    (hgf : ¬ gap ≤ filled)
    (hnd₁ : (ctx₁.video_data.map Prod.fst).Nodup)
    (hlk₁ : (lookupVD ctx₁.video_data c).isSome)
    (hsum₁ : (getRecord ctx₁ c).summary = "")
    (hcount₁ : summarizedCount ctx₁ = summarizedCount ctx)
    (hrecs₁ : ∀ x ∈ rest, getRecord ctx₁ x = getRecord ctx x)
    (hrep₁ : ctx₁.report_markdown = ctx.report_markdown)
    (hq₁ : ctx₁.query = ctx.query) (hp₁ : ctx₁.platform = ctx.platform)
    (hm₁ : ctx₁.max_videos = ctx.max_videos)
    (hfill : fillable ex ctx c = true)
    (hsne : (s == "") = false) :
    ∃ ctx', backfillGo ex llm gap rest (filled + 1)
        { ctx₁ with video_data :=
          (setVD ctx₁.video_data c { getRecord ctx₁ c with summary := s }) } =
        .ok (filled + min (gap - filled) (fillableCount ex ctx (c :: rest)), ctx') ∧
      summarizedCount ctx' =
        summarizedCount ctx + min (gap - filled) (fillableCount ex ctx (c :: rest)) ∧
      ctx'.report_markdown = ctx.report_markdown ∧ ctx'.query = ctx.query ∧
      ctx'.platform = ctx.platform ∧ ctx'.max_videos = ctx.max_videos ∧
      (ctx'.video_data.map Prod.fst).Nodup := by
  have hspec := summarize_update_spec ctx₁ c s hnd₁ hlk₁ hsum₁ hsne
  have hrecs₂ : ∀ x ∈ rest, getRecord { ctx₁ with video_data :=
      (setVD ctx₁.video_data c { getRecord ctx₁ c with summary := s }) } x =
      getRecord ctx x := by
    intro x hx
    rw [getRecord_set_ne ctx₁ c _ x fun hxc => hcnotin (hxc ▸ hx)]
    exact hrecs₁ x hx
  obtain ⟨ctx', hrun, hcnt, hrep, hq, hp, hm, hnd'⟩ :=
    ih (filled + 1) { ctx₁ with video_data :=
        (setVD ctx₁.video_data c { getRecord ctx₁ c with summary := s }) }
      hrestnd hspec.2 hex hllm fun x hx => by rw [hrecs₂ x hx]; exact hsum x hx
  have hfc2 : fillableCount ex { ctx₁ with video_data :=
      (setVD ctx₁.video_data c { getRecord ctx₁ c with summary := s }) } rest =
      fillableCount ex ctx rest :=
    fillableCount_congr ex _ ctx rest hrecs₂
  have hfcc : fillableCount ex ctx (c :: rest) = fillableCount ex ctx rest + 1 := by
    simp [fillableCount, List.filter_cons, hfill]
  have hsc2 : summarizedCount { ctx₁ with video_data :=
      (setVD ctx₁.video_data c { getRecord ctx₁ c with summary := s }) } =
      summarizedCount ctx + 1 := by
    show summarizedLen (setVD ctx₁.video_data c { getRecord ctx₁ c with summary := s })
      = summarizedCount ctx + 1
    rw [hspec.1]
    show summarizedCount ctx₁ + 1 = summarizedCount ctx + 1
    rw [hcount₁]
  refine ⟨ctx', ?_, ?_, by rw [hrep, hrep₁], by rw [hq, hq₁], by rw [hp, hp₁],
    by rw [hm, hm₁], hnd'⟩
  · rw [hrun, hfc2, hfcc]
    have harith : filled + 1 + min (gap - (filled + 1)) (fillableCount ex ctx rest) =
        filled + min (gap - filled) (fillableCount ex ctx rest + 1) := by omega
    rw [harith]
  · rw [hcnt, hsc2, hfc2, hfcc]
    omega

/-- Specification of the backfill candidate loop: over distinct candidates
that all lack a summary, with no raising extraction among them and
summarize calls that return truthy text, the loop adds exactly
min (gap - filled) (fillable candidates) summaries, reports the
corresponding filled counter, and leaves the report, query, platform,
target and key-distinctness intact. -/
lemma backfillGo_spec (ex : String → ExtractOutcome) (llm : String → Except String String)
    (gap : Nat) :
    ∀ (cands : List String) (filled : Nat) (ctx : AgentContext),
    cands.Nodup → (ctx.video_data.map Prod.fst).Nodup →
    (∀ c ∈ cands, isExnB (ex c) = false) →
    (∀ c ∈ cands, isErrorB (llm c) = false ∧ okText (llm c) ≠ "") →
    (∀ c ∈ cands, (getRecord ctx c).summary = "") →
    ∃ ctx',
      backfillGo ex llm gap cands filled ctx =
        .ok (filled + min (gap - filled) (fillableCount ex ctx cands), ctx') ∧
      summarizedCount ctx' =
        summarizedCount ctx + min (gap - filled) (fillableCount ex ctx cands) ∧
      ctx'.report_markdown = ctx.report_markdown ∧
      ctx'.query = ctx.query ∧
      ctx'.platform = ctx.platform ∧
      ctx'.max_videos = ctx.max_videos ∧
      (ctx'.video_data.map Prod.fst).Nodup := by
  intro cands
  induction cands with
  | nil =>
    intro filled ctx _ hnd _ _ _
    refine ⟨ctx, by simp [backfillGo, fillableCount], by simp [fillableCount], rfl, rfl,
      rfl, rfl, hnd⟩
  | cons c rest ih =>
    intro filled ctx hcnd hnd hex hllm hsum
    have hcmem : c ∈ c :: rest := by simp
    have hcnotin : c ∉ rest := by
      simp only [List.nodup_cons] at hcnd
      exact hcnd.1
    have hrestnd : rest.Nodup := by
      simp only [List.nodup_cons] at hcnd
      exact hcnd.2
    have hexr : ∀ x ∈ rest, isExnB (ex x) = false := fun x hx => hex x (by simp [hx])
    have hllmr : ∀ x ∈ rest, isErrorB (llm x) = false ∧ okText (llm x) ≠ "" :=
      fun x hx => hllm x (by simp [hx])
    have hsumr : ∀ x ∈ rest, (getRecord ctx x).summary = "" :=
      fun x hx => hsum x (by simp [hx])
    by_cases hgf : gap ≤ filled
    · have h0 : min (gap - filled) (fillableCount ex ctx (c :: rest)) = 0 := by omega
      exact ⟨ctx, by simp [backfillGo, hgf, h0], by omega, rfl, rfl, rfl, rfl, hnd⟩
    · obtain ⟨s, hl, hsne⟩ : ∃ s, llm c = .ok s ∧ (s == "") = false := by
        obtain ⟨h1, h2⟩ := hllm c hcmem
        cases hlc : llm c with
        | error e =>
          rw [hlc] at h1
          simp [isErrorB] at h1
        | ok s =>
          rw [hlc] at h2
          simp only [okText] at h2
          exact ⟨s, rfl, beq_empty_false_of_ne h2⟩
      cases hA : (getRecord ctx c).transcript == "" with
      | false =>
        have hlk : (lookupVD ctx.video_data c).isSome := by
          cases hh : lookupVD ctx.video_data c with
          | some r => rfl
          | none =>
            have hdef : getRecord ctx c = {} := by simp [getRecord, hh]
            rw [hdef] at hA
            simp at hA
        have hfill : fillable ex ctx c = true := by simp [fillable, hA]
        obtain ⟨ctx', hrun, hcnt, hrep, hq, hp, hm, hnd'⟩ :=
          backfillGo_fill_aux ex llm gap c rest filled ctx ctx s ih hrestnd hcnotin
            hexr hllmr hsumr hgf hnd hlk (hsum c hcmem) rfl (fun x _ => rfl) rfl rfl rfl
            rfl hfill hsne
        refine ⟨ctx', ?_, hcnt, hrep, hq, hp, hm, hnd'⟩
        have hstep : backfillGo ex llm gap (c :: rest) filled ctx =
            backfillGo ex llm gap rest (filled + 1) { ctx with video_data :=
              (setVD ctx.video_data c { getRecord ctx c with summary := s }) } := by
          simp [backfillGo, hgf, hA, hl]
        rw [hstep]
        exact hrun
      | true =>
        cases hex0 : ex c with
        | exn e =>
          have h := hex c hcmem
          rw [hex0] at h
          simp [isExnB] at h
        | ok t =>
          cases ht : t == "" with
          | true =>
            have hfill : fillable ex ctx c = false := by
              simp [fillable, hA, hex0, ht]
            have hfcc : fillableCount ex ctx (c :: rest) = fillableCount ex ctx rest := by
              simp [fillableCount, List.filter_cons, hfill]
            obtain ⟨ctx', hrun, hcnt, hrep, hq, hp, hm, hnd'⟩ :=
              ih filled ctx hrestnd hnd hexr hllmr hsumr
            refine ⟨ctx', ?_, by rw [hcnt, hfcc], hrep, hq, hp, hm, hnd'⟩
            have hstep : backfillGo ex llm gap (c :: rest) filled ctx =
                backfillGo ex llm gap rest filled ctx := by
              simp [backfillGo, hgf, hA, hex0, ht]
            rw [hstep, hrun, hfcc]
          | false =>
            have htr := transcript_update_spec ctx c
              (if (lookupVD ctx.video_data c).isSome then (getRecord ctx c).info
                else get_video_info ctx c) t hnd (hsum c hcmem)
            have hfill : fillable ex ctx c = true := by
              simp [fillable, hA, hex0, ht]
            obtain ⟨ctx', hrun, hcnt, hrep, hq, hp, hm, hnd'⟩ :=
              backfillGo_fill_aux ex llm gap c rest filled ctx
                { ctx with video_data := (setVD ctx.video_data c
                  { info := (if (lookupVD ctx.video_data c).isSome
                      then (getRecord ctx c).info else get_video_info ctx c),
                    transcript := t, summary := (getRecord ctx c).summary }) }
                s ih hrestnd hcnotin hexr hllmr hsumr hgf htr.2.1 htr.2.2
                (by rw [getRecord_set_self]; exact hsum c hcmem) htr.1
                (fun x hx => getRecord_set_ne ctx c _ x fun hxc => hcnotin (hxc ▸ hx))
                rfl rfl rfl rfl hfill hsne
            refine ⟨ctx', ?_, hcnt, hrep, hq, hp, hm, hnd'⟩
            have hstep : backfillGo ex llm gap (c :: rest) filled ctx =
                backfillGo ex llm gap rest (filled + 1)
                  { { ctx with video_data := (setVD ctx.video_data c
                      { info := (if (lookupVD ctx.video_data c).isSome
                          then (getRecord ctx c).info else get_video_info ctx c),
                        transcript := t, summary := (getRecord ctx c).summary }) }
                    with video_data := (setVD
                      ({ ctx with video_data := (setVD ctx.video_data c
                        { info := (if (lookupVD ctx.video_data c).isSome
                            then (getRecord ctx c).info else get_video_info ctx c),
                          transcript := t,
                          summary := (getRecord ctx c).summary }) }).video_data c
                      { getRecord ({ ctx with video_data := (setVD ctx.video_data c
                          { info := (if (lookupVD ctx.video_data c).isSome
                              then (getRecord ctx c).info else get_video_info ctx c),
                            transcript := t,
                            summary := (getRecord ctx c).summary }) }) c
                        with summary := s }) } := by
              simp [backfillGo, hgf, hA, hex0, ht, hl]
            rw [hstep]
            exact hrun

/-- Every candidate id is discovered-but-unsummarized by construction. -/
lemma candidateIds_summary_empty (ctx : AgentContext) :
    ∀ c ∈ candidateIds ctx, (getRecord ctx c).summary = "" := by
  intro c hc
  simp only [candidateIds, List.mem_map] at hc
  obtain ⟨vi, hvi, hid⟩ := hc
  rw [List.mem_filter] at hvi
  rw [← hid]
  simpa using hvi.2

/-- C2: backfill does nothing when the target is already met; otherwise it
closes the gap exactly when enough fillable candidates remain and to the
maximum achievable count otherwise (final summarized count =
min(target, initial + fillable candidates)); when at least one summary was
added and a report already existed the report is regenerated from the
consolidation call over the now-summarized videos, and otherwise the report
is left untouched. -/
theorem C2_backfill_closure (ex : String → ExtractOutcome)
    (llm : String → Except String String) (rep : Except String String)
    (ctx : AgentContext) (rv : String)
    (hnd : (ctx.video_data.map Prod.fst).Nodup)
    (hcnd : (candidateIds ctx).Nodup)
    (hex : ∀ c ∈ candidateIds ctx, isExnB (ex c) = false)
    (hllm : ∀ c ∈ candidateIds ctx, isErrorB (llm c) = false ∧ okText (llm c) ≠ "")
    (hrep : rep = .ok rv) :
    (ctx.max_videos ≤ summarizedCount ctx → backfill_videos ex llm rep ctx = .ok ctx) ∧
    (summarizedCount ctx < ctx.max_videos →
      ∃ ctx', backfill_videos ex llm rep ctx = .ok ctx' ∧
        summarizedCount ctx' = min ctx.max_videos
          (summarizedCount ctx + fillableCount ex ctx (candidateIds ctx)) ∧
        ((0 < min (ctx.max_videos - summarizedCount ctx)
            (fillableCount ex ctx (candidateIds ctx)) ∧ ctx.report_markdown ≠ "") →
          ctx'.report_markdown =
            buildReportMarkdown rv (summarizedCount ctx') ctx.query ctx.platform) ∧
        (¬ (0 < min (ctx.max_videos - summarizedCount ctx)
            (fillableCount ex ctx (candidateIds ctx)) ∧ ctx.report_markdown ≠ "") →
          ctx'.report_markdown = ctx.report_markdown)) := by
  constructor
  · intro h
    simp [backfill_videos, h]
  · intro hlt
    have hnle : ¬ ctx.max_videos ≤ summarizedCount ctx := by omega
    obtain ⟨ctx₀, hrun, hcnt, hrep0, hq0, hp0, hm0, hnd0⟩ :=
      backfillGo_spec ex llm (ctx.max_videos - summarizedCount ctx) (candidateIds ctx)
        0 ctx hcnd hnd hex hllm (candidateIds_summary_empty ctx)
    by_cases hregen : 0 < min (ctx.max_videos - summarizedCount ctx)
        (fillableCount ex ctx (candidateIds ctx)) ∧ ctx.report_markdown ≠ ""
    · have hcond : 0 < 0 + min (ctx.max_videos - summarizedCount ctx - 0)
          (fillableCount ex ctx (candidateIds ctx)) ∧ ctx₀.report_markdown ≠ "" := by
        refine ⟨by omega, ?_⟩
        rw [hrep0]
        exact hregen.2
      have hsc0 : summarizedCount { ctx₀ with report_markdown := "" }
          = summarizedCount ctx₀ := rfl
      have hpos : 0 < summarizedCount { ctx₀ with report_markdown := "" } := by
        rw [hsc0, hcnt]
        omega
      have hdgr := (do_generate_report_of_pos rep
        { ctx₀ with report_markdown := "" } hpos).2 rv hrep
      refine ⟨{ { ctx₀ with report_markdown := "" } with report_markdown :=
          (buildReportMarkdown rv (summarizedCount { ctx₀ with report_markdown := "" })
            ({ ctx₀ with report_markdown := "" } : AgentContext).query
            ({ ctx₀ with report_markdown := "" } : AgentContext).platform) }, ?_, ?_, ?_, ?_⟩
      · simp only [backfill_videos]
        rw [if_neg hnle]
        simp only [hrun]
        rw [if_pos hcond]
        simp only [hdgr]
      · show summarizedCount ctx₀ = min ctx.max_videos
          (summarizedCount ctx + fillableCount ex ctx (candidateIds ctx))
        rw [hcnt]
        omega
      · intro _
        show buildReportMarkdown rv (summarizedCount ctx₀) ctx₀.query ctx₀.platform =
          buildReportMarkdown rv (summarizedCount ctx₀) ctx.query ctx.platform
        rw [hq0, hp0]
      · intro hcontra
        exact absurd hregen hcontra
    · refine ⟨ctx₀, ?_, ?_, fun hc => absurd hc hregen, fun _ => hrep0⟩
      · have hcond : ¬ (0 < 0 + min (ctx.max_videos - summarizedCount ctx - 0)
            (fillableCount ex ctx (candidateIds ctx)) ∧ ctx₀.report_markdown ≠ "") := by
          intro hc
          exact hregen ⟨by omega, by rw [← hrep0]; exact hc.2⟩
        simp only [backfill_videos]
        rw [if_neg hnle]
        simp only [hrun]
        rw [if_neg hcond]
      · rw [hcnt]
        omega

/-- Witness for C2: in the spec's closure example the gap of 3 is closed to
exactly the target of 5. -/
theorem C2_backfill_closure_witness :
    ∃ ctx', backfill_videos (fun _ => .ok "text") (fun _ => .ok "S") (.ok "R") ctxC2
        = .ok ctx' ∧ summarizedCount ctx' = 5 := by
  obtain ⟨ctx', h1, h2, _, _⟩ :=
    (C2_backfill_closure (fun _ => .ok "text") (fun _ => .ok "S") (.ok "R") ctxC2 "R"
      (by decide) (by decide) (by decide) (by decide) rfl).2 (by decide)
  exact ⟨ctx', h1, by rw [h2]; decide⟩

/-- C8: every chat call makes up to 3 total attempts; a success on attempt k
returns that attempt's text after exactly k underlying calls with backoff
delays RETRY_BASE_DELAY * 2 ^ (attempt - 1) between attempts; three failures
raise the error of the last attempt after delays of 2 and 4 seconds. -/
theorem C8_chat_retry_policy (oracle : Nat → Except String String) :
    (∀ t, oracle 1 = .ok t → chat oracle = ⟨.ok t, 1, []⟩) ∧
    (∀ e₁ t, oracle 1 = .error e₁ → oracle 2 = .ok t →
      chat oracle = ⟨.ok t, 2, [RETRY_BASE_DELAY * 2 ^ 0]⟩) ∧
    (∀ e₁ e₂ t, oracle 1 = .error e₁ → oracle 2 = .error e₂ → oracle 3 = .ok t →
      chat oracle = ⟨.ok t, 3, [RETRY_BASE_DELAY * 2 ^ 0, RETRY_BASE_DELAY * 2 ^ 1]⟩) ∧
    (∀ e₁ e₂ e₃, oracle 1 = .error e₁ → oracle 2 = .error e₂ → oracle 3 = .error e₃ →
      chat oracle = ⟨.error e₃, 3, [RETRY_BASE_DELAY * 2 ^ 0, RETRY_BASE_DELAY * 2 ^ 1]⟩) := by
  have hr : List.range' 1 MAX_RETRIES = [1, 2, 3] := rfl
  refine ⟨?_, ?_, ?_, ?_⟩ <;> intros <;>
    simp_all [chat, hr, chatGo, MAX_RETRIES, RETRY_BASE_DELAY]

/-- Witness for C8 at a concrete always-failing oracle. -/
theorem C8_chat_retry_policy_witness :
    chat (fun _ => .error "boom") = ⟨.error "boom", 3, [2, 4]⟩ :=
  (C8_chat_retry_policy (fun _ => .error "boom")).2.2.2 "boom" "boom" "boom" rfl rfl rfl

/-- C9: chat_json injects a JSON-only instruction when the leading system
message does not already mention JSON (appending to an existing system
message, or inserting a fresh one when the first message is not a system
message), strips a surrounding code fence from the model answer, and parses
the remainder; a parse failure is surfaced immediately with no further
generation call beyond the ones chat already made. -/
theorem C9_chat_json_parse {α : Type} (parse : String → Except String α)
    (oracle : Nat → Except String String) :
    (∀ (m : Message) (rest : List Message), m.role = "system" →
      strContains m.content "JSON" = true →
      (chat_json parse oracle (m :: rest)).sent = m :: rest) ∧
    (∀ (m : Message) (rest : List Message), m.role = "system" →
      strContains m.content "JSON" = false →
      (chat_json parse oracle (m :: rest)).sent =
        { m with content := m.content ++ "\n\n" ++ JSON_ONLY_INSTRUCTION } :: rest) ∧
    (∀ (m : Message) (rest : List Message), m.role ≠ "system" →
      (chat_json parse oracle (m :: rest)).sent =
        { role := "system", content := JSON_ONLY_INSTRUCTION } :: m :: rest) ∧
    (stripCodeFence "```json\n[1, 2]\n```" = "[1, 2]") ∧
    (∀ (messages : List Message), (chat_json parse oracle messages).calls = (chat oracle).calls) ∧
    (∀ t e messages, oracle 1 = .ok t → parse (stripCodeFence t) = .error e →
      (chat_json parse oracle messages).result = .error e ∧
      (chat_json parse oracle messages).calls = 1) := by
  have hr : List.range' 1 MAX_RETRIES = [1, 2, 3] := rfl
  refine ⟨?_, ?_, ?_, by decide, ?_, ?_⟩
  · intro m rest h1 h2
    simp [chat_json, injectJsonInstruction, h1, h2]
  · intro m rest h1 h2
    simp [chat_json, injectJsonInstruction, h1, h2]
  · intro m rest h1
    simp [chat_json, injectJsonInstruction, h1]
  · intro messages
    rfl
  · intro t e messages h1 h2
    simp [chat_json, chat, hr, chatGo, h1, h2]

/-- Witness for C9 at a concrete oracle returning a fenced non-JSON answer
and a parse function that rejects it. -/
theorem C9_chat_json_parse_witness :
    (chat_json (fun s => (.error ("bad: " ++ s) : Except String Nat))
      (fun _ => .ok "```json\nnot json\n```") []).result = .error "bad: not json" ∧
    (chat_json (fun s => (.error ("bad: " ++ s) : Except String Nat))
      (fun _ => .ok "```json\nnot json\n```") []).calls = 1 :=
  (C9_chat_json_parse (fun s => (.error ("bad: " ++ s) : Except String Nat))
      (fun _ => .ok "```json\nnot json\n```")).2.2.2.2.2
    "```json\nnot json\n```" "bad: not json" [] rfl (by decide)

/-- C7: starting from a cold (or expired) cache, a successful fetch at time
t0 followed by any number of requests before t0 + WBI_TTL issues exactly one
network call in total; the cache afterwards holds the fetched key until
t0 + WBI_TTL, and the first request at or after expiry issues a (single)
refetch. -/
theorem C7_wbi_cache_idempotent (fetch : Nat → String) (t0 : Nat) (ts : List Nat)
    (st0 : WbiCache) (hmiss : st0.key = "" ∨ st0.expires ≤ t0) (hk : fetch t0 ≠ "")
    (hts : ∀ t ∈ ts, t < t0 + WBI_TTL) :
    (processWbiRequests fetch (t0 :: ts) st0).2 = 1 ∧
    (processWbiRequests fetch (t0 :: ts) st0).1 = ⟨fetch t0, t0 + WBI_TTL⟩ ∧
    ∀ t, t0 + WBI_TTL ≤ t →
      (get_wbi_mixin_key fetch t (processWbiRequests fetch (t0 :: ts) st0).1).networkCall
        = true := by
  have hmiss' : get_wbi_mixin_key fetch t0 st0 =
      ⟨fetch t0, ⟨fetch t0, t0 + WBI_TTL⟩, true⟩ := by
    rcases hmiss with h | h <;> simp [get_wbi_mixin_key, h, Nat.not_lt.mpr]
  have hwarm : processWbiRequests fetch ts ⟨fetch t0, t0 + WBI_TTL⟩ =
      (⟨fetch t0, t0 + WBI_TTL⟩, 0) :=
    processWbiRequests_warm fetch ts _ hk hts
  have hrun : processWbiRequests fetch (t0 :: ts) st0 = (⟨fetch t0, t0 + WBI_TTL⟩, 1) := by
    simp [processWbiRequests, hmiss', hwarm]
  refine ⟨by simp [hrun], by simp [hrun], ?_⟩
  intro t ht
  simp [hrun, get_wbi_mixin_key, Nat.not_lt.mpr ht]

/-- Witness for C7: a cold cache, a fetch at time 100, repeated requests
inside the 1800-second window, one total network call, and a guaranteed
refetch at time 1900. -/
theorem C7_wbi_cache_idempotent_witness :
    (processWbiRequests (fun _ => "key") [100, 200, 1800] ⟨"", 0⟩).2 = 1 ∧
    (get_wbi_mixin_key (fun _ => "key") 1900
      (processWbiRequests (fun _ => "key") [100, 200, 1800] ⟨"", 0⟩).1).networkCall
        = true :=
  have h := C7_wbi_cache_idempotent (fun _ => "key") 100 [200, 1800] ⟨"", 0⟩
    (Or.inl rfl) (by decide) (by decide)
  ⟨h.1, h.2.2 1900 (by decide)⟩

end VideoMuse
